import Mathlib

/-!
# vanilla-dropdown: a shallow embedding of `src/dropdown.js`

The class `VanillaDropdown` is embedded as functions over an explicit `World`:
a heap of DOM elements, a heap of widget instances, the static array
`VanillaDropdown.instances`, and the observable side channels (focus, attached
listeners, dispatched custom events, console warnings).

Object identity is a reference (`Ref`).  A method that can raise a `TypeError`
(a property access on `null` or `undefined`) returns an `Outcome` that keeps the
world reached at the point of the throw, because JavaScript does not roll back
the assignments made before an exception.

The answers of the host document to structural queries (`querySelector`,
`querySelectorAll`) are data of the world: the widget never changes the classes
or tags those queries select on.
-/

namespace VanillaDropdown

/-- Object identity of a DOM element or of a widget instance. -/
abbrev Ref := Nat

/-! ## JavaScript values and object literals -/

/-- The JavaScript values an options object or a DOM read produces here. -/
inductive JSVal where
  | undefined
  | null
  | bool (b : Bool)
  | str (s : String)
  deriving DecidableEq, Repr

/-- JavaScript truthiness (`ToBoolean`). -/
def JSVal.truthy : JSVal → Bool
  | .undefined => false
  | .null => false
  | .bool b => b
  | .str s => !(s == "")

/-- The operator `a || b`. -/
def JSVal.or (a b : JSVal) : JSVal :=
  if a.truthy then a else b

/-- An object seen through its own properties: `none` is "no own property". -/
abbrev Obj := String → Option JSVal

/-- The empty object literal. -/
def Obj.empty : Obj := fun _ => none

/-- Property read `o.k`: a missing property reads as `undefined`. -/
def Obj.get (o : Obj) (k : String) : JSVal :=
  match o k with
  | some v => v
  | none => .undefined

/-- Property definition inside an object literal, or assignment `o.k = v`. -/
def Obj.set (o : Obj) (k : String) (v : JSVal) : Obj :=
  fun j => if j = k then some v else o j

/-- Spread `{ ...base, ...extra }`: the own properties of `extra` are copied
over whatever `base` already holds. -/
def Obj.spread (base extra : Obj) : Obj :=
  fun j => match extra j with
    | some v => some v
    | none => base j

/-- A DOM attribute read (`getAttribute`, `dataset.*`) as a JavaScript value:
`absent` is what an absent attribute reads as (`null` or `undefined`). -/
def attrVal (absent : JSVal) : Option String → JSVal
  | some s => .str s
  | none => absent

/-! ## The DOM -/

/-- A DOM element, reduced to what the widget reads and writes. -/
structure Element where
  /-- The property `tagName`. -/
  tagName : String
  /-- The tokens of `classList`. -/
  classList : List String
  /-- The attribute map behind `getAttribute` and `setAttribute`. -/
  attributes : String → Option String
  /-- The property `href` of an anchor. -/
  href : String
  /-- The property `textContent`. -/
  textContent : String
  /-- The expando property `vanillaDropdown` set by `initAll`. -/
  vanillaDropdown : Option Ref
  /-- Answer to `querySelector('.dropdown-toggle')` on this element. -/
  toggleQuery : Option Ref
  /-- Answer to `querySelector('.dropdown-menu')` on this element. -/
  menuQuery : Option Ref
  /-- Answer to `querySelectorAll('a')` on this element, in document order. -/
  anchors : List Ref
  /-- Whether the host document renders the element (and it is neither inert
  nor disabled): only such an element can take the focus. -/
  rendered : Bool
  /-- Whether the element is a focusable area without a `tabindex`: a link with
  `href`, a button, a form control. -/
  nativeFocus : Bool

/-- The call `classList.add(c)`. -/
def classListAdd (cl : List String) (c : String) : List String :=
  if c ∈ cl then cl else cl ++ [c]

/-- The call `classList.remove(c)`. -/
def classListRemove (cl : List String) (c : String) : List String :=
  cl.filter (fun x => !(x == c))

/-- The call `el.classList.add(c)`. -/
def Element.addClass (e : Element) (c : String) : Element :=
  { e with classList := classListAdd e.classList c }

/-- The call `el.classList.remove(c)`. -/
def Element.removeClass (e : Element) (c : String) : Element :=
  { e with classList := classListRemove e.classList c }

/-- The call `el.setAttribute(k, v)`. -/
def Element.setAttribute (e : Element) (k v : String) : Element :=
  { e with attributes := fun j => if j = k then some v else e.attributes j }

/-- The call `el.getAttribute(k)`: `null` when the attribute is absent. -/
def Element.getAttribute (e : Element) (k : String) : JSVal :=
  attrVal .null (e.attributes k)

/-- ASCII white space in the sense of the HTML standard. -/
def isAsciiWhitespace (c : Char) : Bool :=
  let n := c.toNat
  n == 0x09 || n == 0x0A || n == 0x0C || n == 0x0D || n == 0x20

/-- Whether the HTML rules for parsing integers accept the text: leading white
space, an optional sign, then at least one digit. -/
def parsesAsInteger (s : String) : Bool :=
  match s.data.dropWhile isAsciiWhitespace with
  | [] => false
  | c :: rest =>
    if c.toNat == 0x2D || c.toNat == 0x2B then
      match rest with
      | [] => false
      | d :: _ => d.isDigit
    else c.isDigit

/-- Whether the element has a tabindex value: a `tabindex` attribute that
parses as an integer. -/
def Element.hasTabindex (e : Element) : Bool :=
  match e.attributes "tabindex" with
  | some s => parsesAsInteger s
  | none => false

/-- Whether the element is a focusable area: it is rendered, and focusable
natively or through its `tabindex`. -/
def Element.focusable (e : Element) : Bool :=
  e.rendered && (e.nativeFocus || e.hasTabindex)

/-- The read `el.dataset.trigger`: the attribute `data-trigger`, `undefined` when absent. -/
def Element.datasetTrigger (e : Element) : JSVal :=
  attrVal .undefined (e.attributes "data-trigger")

/-! ## Widget instances and the world -/

/-- The fields of one `VanillaDropdown` object. -/
structure Instance where
  element : Ref
  options : Obj
  toggle : Option Ref
  menu : Option Ref
  isOpen : Bool
  selectedValue : JSVal
  selectedText : JSVal

/-- Where a listener is attached. -/
inductive Target where
  | document
  | node (r : Ref)
  deriving DecidableEq, Repr

/-- The eight handlers the constructor can attach. -/
inductive Handler where
  | toggleClick
  | mouseenter
  | mouseleave
  | documentClick
  | documentKeydown
  | menuClick
  | toggleKeydown
  | menuKeydown
  deriving DecidableEq, Repr

/-- One `addEventListener` registration made on behalf of instance `owner`. -/
structure Listener where
  target : Target
  type : String
  handler : Handler
  owner : Ref
  deriving DecidableEq, Repr

/-- A custom event handed to `dispatchEvent`, with its `detail`. -/
inductive Notification where
  | opened (dropdown : Ref)
  | closed (dropdown : Ref)
  | selected (dropdown : Ref) (value text : JSVal) (element : Ref)
  deriving DecidableEq, Repr

/-- The whole mutable state the script works on. -/
structure World where
  /-- The DOM heap. -/
  elems : Ref → Element
  /-- The heap of `VanillaDropdown` objects. -/
  insts : Ref → Instance
  /-- The next unused instance reference; `new` allocates it. -/
  nextInst : Ref
  /-- The static array `VanillaDropdown.instances`. -/
  instances : List Ref
  /-- Answer to `document.querySelectorAll('.dropdown')`, in document order. -/
  dropdownElements : List Ref
  /-- The element `document.activeElement`, when it is one of the modelled ones. -/
  activeElement : Option Ref
  /-- Listeners attached so far. -/
  listeners : List Listener
  /-- Custom events dispatched so far, oldest first. -/
  emitted : List Notification
  /-- Messages sent to `console.warn`, oldest first. -/
  warnings : List String

/-- Replace the element stored at `r`. -/
def World.setElem (w : World) (r : Ref) (f : Element → Element) : World :=
  { w with elems := fun k => if k = r then f (w.elems k) else w.elems k }

/-- Replace the instance stored at `r`. -/
def World.setInst (w : World) (r : Ref) (f : Instance → Instance) : World :=
  { w with insts := fun k => if k = r then f (w.insts k) else w.insts k }

/-- The call `target.addEventListener(type, handler)`. -/
def World.addListener (w : World) (l : Listener) : World :=
  { w with listeners := w.listeners ++ [l] }

/-- The call `element.dispatchEvent(new CustomEvent(...))`. -/
def World.emit (w : World) (n : Notification) : World :=
  { w with emitted := w.emitted ++ [n] }

/-- The call `el.focus()`: the focus moves to the element when it is a
focusable area, and stays where it is otherwise. -/
def World.focus (w : World) (r : Ref) : World :=
  if (w.elems r).focusable then { w with activeElement := some r } else w

/-- How a call ends: normally, or with a `TypeError` raised from a property
access on `null` or `undefined`.  Both carry the world reached. -/
inductive Outcome where
  | done (w : World)
  | threw (w : World)

/-- The world a call leaves behind. -/
def Outcome.world : Outcome → World
  | .done w => w
  | .threw w => w

/-- Whether the call completed without throwing. -/
def Outcome.completed : Outcome → Bool
  | .done _ => true
  | .threw _ => false

/-- Statement sequencing: an exception skips the rest. -/
def Outcome.andThen (r : Outcome) (f : World → Outcome) : Outcome :=
  match r with
  | .done w => f w
  | .threw w => .threw w

/-- The loop `xs.forEach(f)`: the callback runs on each entry in order; an exception
raised by the callback ends the loop. -/
def forEach (xs : List Ref) (f : World → Ref → Outcome) (w : World) : Outcome :=
  match xs with
  | [] => .done w
  | x :: rest =>
    match f w x with
    | .done w1 => forEach rest f w1
    | .threw w1 => .threw w1

/-! ## The state machine -/

/-- Method `closeDropdown()`. -/
def closeDropdown (w : World) (this : Ref) : Outcome :=
  if !(w.insts this).isOpen then .done w
  else
    let w1 := w.setInst this (fun s => { s with isOpen := false })
    match (w1.insts this).menu with
    | none => .threw w1
    | some menu =>
      let w2 := w1.setElem menu (fun e => e.removeClass "show")
      let w3 := w2.setElem (w2.insts this).element (fun e => e.removeClass "active")
      match (w3.insts this).toggle with
      | none => .threw w3
      | some toggle =>
        let w4 := w3.setElem toggle (fun e => e.setAttribute "aria-expanded" "false")
        .done (w4.emit (.closed this))

/-- The callback of the loop in `closeAllDropdowns`. -/
def closeUnless (except : Option Ref) (w : World) (inst : Ref) : Outcome :=
  if some inst ≠ except ∧ (w.insts inst).isOpen = true then closeDropdown w inst
  else .done w

/-- Static method `closeAllDropdowns(except)`: `none` is the default `null`. -/
def closeAllDropdowns (w : World) (except : Option Ref) : Outcome :=
  forEach w.instances (closeUnless except) w

/-- Method `openDropdown()`. -/
def openDropdown (w : World) (this : Ref) : Outcome :=
  if (w.insts this).isOpen then .done w
  else
    (closeAllDropdowns w (some this)).andThen fun w0 =>
      let w1 := w0.setInst this (fun s => { s with isOpen := true })
      match (w1.insts this).menu with
      | none => .threw w1
      | some menu =>
        let w2 := w1.setElem menu (fun e => e.addClass "show")
        let w3 := w2.setElem (w2.insts this).element (fun e => e.addClass "active")
        match (w3.insts this).toggle with
        | none => .threw w3
        | some toggle =>
          let w4 := w3.setElem toggle (fun e => e.setAttribute "aria-expanded" "true")
          .done (w4.emit (.opened this))

/-- Method `toggleDropdown()`. -/
def toggleDropdown (w : World) (this : Ref) : Outcome :=
  if (w.insts this).isOpen then closeDropdown w this
  else openDropdown w this

/-! ## Construction -/

/-- The object literal assigned to `this.options` in the constructor:
`trigger` and `closeOnClickOutside` are defined first, then `...options` is
spread over them. -/
def resolveOptions (element : Element) (options : Obj) : Obj :=
  Obj.spread
    ((Obj.empty.set "trigger"
        ((element.datasetTrigger.or (options.get "trigger")).or (.str "click"))).set
      "closeOnClickOutside"
        (.bool (decide (options.get "closeOnClickOutside" ≠ .bool false))))
    options

/-- The text handed to `console.warn` by `init`. -/
def initWarning : String :=
  "Dropdown requires .dropdown-toggle and .dropdown-menu elements"

/-- Method `setupEventListeners()`. -/
def setupEventListeners (w : World) (this : Ref) : Outcome :=
  let s := w.insts this
  let bindTrigger : Outcome :=
    if s.options.get "trigger" = .str "click" then
      match s.toggle with
      | none => .threw w
      | some toggle => .done (w.addListener ⟨.node toggle, "click", .toggleClick, this⟩)
    else if s.options.get "trigger" = .str "hover" then
      .done ((w.addListener ⟨.node s.element, "mouseenter", .mouseenter, this⟩).addListener
        ⟨.node s.element, "mouseleave", .mouseleave, this⟩)
    else .done w
  bindTrigger.andThen fun w1 =>
    let w2 :=
      if (s.options.get "closeOnClickOutside").truthy then
        w1.addListener ⟨.document, "click", .documentClick, this⟩
      else w1
    let w3 := w2.addListener ⟨.document, "keydown", .documentKeydown, this⟩
    match s.menu with
    | none => .threw w3
    | some menu => .done (w3.addListener ⟨.node menu, "click", .menuClick, this⟩)

/-- The loop body of `menuItems.forEach` in `setupAccessibility`. -/
def markMenuItem (w : World) (item : Ref) : Outcome :=
  .done (w.setElem item (fun e =>
    (e.setAttribute "role" "menuitem").setAttribute "tabindex" "-1"))

/-- Method `setupAccessibility()`. -/
def setupAccessibility (w : World) (this : Ref) : Outcome :=
  let s := w.insts this
  match s.toggle with
  | none => .threw w
  | some toggle =>
    let w1 := w.setElem toggle (fun e =>
      (e.setAttribute "aria-expanded" "false").setAttribute "aria-haspopup" "true")
    match s.menu with
    | none => .threw w1
    | some menu =>
      let w2 := w1.setElem menu (fun e => e.setAttribute "role" "menu")
      let menuItems := (w2.elems menu).anchors
      (forEach menuItems markMenuItem w2).andThen fun w3 =>
        .done ((w3.addListener ⟨.node toggle, "keydown", .toggleKeydown, this⟩).addListener
          ⟨.node menu, "keydown", .menuKeydown, this⟩)

/-- Method `init()`. -/
def init (w : World) (this : Ref) : Outcome :=
  let s := w.insts this
  if s.toggle.isNone || s.menu.isNone then
    .done { w with warnings := w.warnings ++ [initWarning] }
  else
    (setupEventListeners w this).andThen fun w1 => setupAccessibility w1 this

/-- The expression `new VanillaDropdown(element, options)`.  The new object is
the reference `w.nextInst`. -/
def construct (w : World) (element : Ref) (options : Obj) : Outcome :=
  let this := w.nextInst
  let e := w.elems element
  let fresh : Instance :=
    { element := element
      options := resolveOptions e options
      toggle := e.toggleQuery
      menu := e.menuQuery
      isOpen := false
      selectedValue := .null
      selectedText := .null }
  let w1 : World :=
    { w with
      insts := fun k => if k = this then fresh else w.insts k
      nextInst := this + 1 }
  init w1 this

/-- Method `getSelectedValue()`. -/
def getSelectedValue (w : World) (this : Ref) : JSVal :=
  (w.insts this).selectedValue

/-- Method `getSelectedText()`. -/
def getSelectedText (w : World) (this : Ref) : JSVal :=
  (w.insts this).selectedText

/-! ## Selection -/

/-- The code points `String.prototype.trim` strips: ECMAScript `WhiteSpace`
(tab, vertical tab, form feed, U+FEFF and the Unicode space separators) and
`LineTerminator` (line feed, carriage return, U+2028, U+2029). -/
def isJsWhiteSpace (c : Char) : Bool :=
  let n := c.toNat
  n == 0x09 || n == 0x0A || n == 0x0B || n == 0x0C || n == 0x0D || n == 0x20 ||
  n == 0xA0 || n == 0x1680 || (0x2000 ≤ n && n ≤ 0x200A) || n == 0x2028 ||
  n == 0x2029 || n == 0x202F || n == 0x205F || n == 0x3000 || n == 0xFEFF

/-- The method `String.prototype.trim` on the characters of a string. -/
def jsTrimChars (cs : List Char) : List Char :=
  ((cs.dropWhile isJsWhiteSpace).reverse.dropWhile isJsWhiteSpace).reverse

/-- The method `String.prototype.trim`. -/
def jsTrim (s : String) : String :=
  String.mk (jsTrimChars s.data)

/-- The suffix appended to the toggle label, byte for byte as in the source. -/
def labelSuffix : String := " â–¼"

/-- The listener on `this.menu` for `click`, run with `e.target = target`. -/
def menuClick (w : World) (this : Ref) (target : Ref) : Outcome :=
  let t := w.elems target
  if t.tagName = "A" then
    let value := (t.getAttribute "data-value").or (.str t.href)
    let text := jsTrim t.textContent
    let w1 := w.setInst this (fun s =>
      { s with selectedValue := value, selectedText := .str text })
    let labelled : Outcome :=
      if ((w1.insts this).options.get "updateToggleText").truthy then
        match (w1.insts this).toggle with
        | none => .threw w1
        | some toggle =>
          .done (w1.setElem toggle (fun e => { e with textContent := text ++ labelSuffix }))
      else .done w1
    labelled.andThen fun w2 =>
      let w3 := w2.emit
        (.selected this (w2.insts this).selectedValue (w2.insts this).selectedText target)
      closeDropdown w3 this
  else .done w

/-! ## Keyboard navigation -/

/-- A JavaScript number as it occurs in the index arithmetic: an integer or `NaN`. -/
inductive JSNum where
  | int (n : Int)
  | nan
  deriving DecidableEq, Repr

/-- The operator `a % b` on integers: `NaN` for a zero divisor, otherwise the
remainder that takes the sign of the dividend. -/
def jsRem (a b : Int) : JSNum :=
  if b = 0 then .nan else .int (Int.tmod a b)

/-- The search of `Array.prototype.indexOf` from position `k` on. -/
def indexOfFrom (xs : List Ref) (x : Ref) (k : Nat) : Int :=
  match xs with
  | [] => -1
  | y :: ys => if y = x then (k : Int) else indexOfFrom ys x (k + 1)

/-- The call `menuItems.indexOf(document.activeElement)`: `-1` when the active
element is not in the array. -/
def indexOf (xs : List Ref) (x : Option Ref) : Int :=
  match x with
  | none => -1
  | some r => indexOfFrom xs r 0

/-- The element read `menuItems[i]`: `none` is `undefined`. -/
def arrayGet (xs : List Ref) (i : JSNum) : Option Ref :=
  match i with
  | .int (Int.ofNat k) => xs.get? k
  | _ => none

/-- The constant `nextIndex` of the `ArrowDown` case. -/
def nextIndex (currentIndex : Int) (length : Nat) : JSNum :=
  jsRem (currentIndex + 1) (length : Int)

/-- The constant `prevIndex` of the `ArrowUp` case. -/
def prevIndex (currentIndex : Int) (length : Nat) : JSNum :=
  .int (if currentIndex > 0 then currentIndex - 1 else (length : Int) - 1)

/-- The call `menuItems[i].focus()`: a `TypeError` when the entry is `undefined`. -/
def focusItem (w : World) (menuItems : List Ref) (i : JSNum) : Outcome :=
  match arrayGet menuItems i with
  | none => .threw w
  | some item => .done (w.focus item)

/-- The listener on `this.menu` for `keydown`, run with `e.key = key`. -/
def menuKeydown (w : World) (this : Ref) (key : String) : Outcome :=
  match (w.insts this).menu with
  | none => .threw w
  | some menu =>
    let menuItems := (w.elems menu).anchors
    let currentIndex := indexOf menuItems w.activeElement
    if key = "ArrowDown" then
      focusItem w menuItems (nextIndex currentIndex menuItems.length)
    else if key = "ArrowUp" then
      focusItem w menuItems (prevIndex currentIndex menuItems.length)
    else .done w

/-- Method `focusFirstMenuItem()`. -/
def focusFirstMenuItem (w : World) (this : Ref) : Outcome :=
  match (w.insts this).menu with
  | none => .threw w
  | some menu =>
    match (w.elems menu).anchors.head? with
    | some firstMenuItem => .done (w.focus firstMenuItem)
    | none => .done w

/-! ## The registry -/

/-- Method `destroy()`. -/
def destroy (w : World) (this : Ref) : Outcome :=
  (closeDropdown w this).andThen fun w1 =>
    let index := indexOf w1.instances (some this)
    let w2 : World :=
      if index > -1 then { w1 with instances := w1.instances.eraseIdx index.toNat }
      else w1
    .done (w2.setElem (w2.insts this).element (fun e => { e with vanillaDropdown := none }))

/-- The loop body of `initAll`. -/
def initElement (w : World) (element : Ref) : Outcome :=
  if (w.elems element).vanillaDropdown.isNone then
    let dropdown := w.nextInst
    (construct w element Obj.empty).andThen fun w1 =>
      let w2 := w1.setElem element (fun e => { e with vanillaDropdown := some dropdown })
      .done { w2 with instances := w2.instances ++ [dropdown] }
  else .done w

/-- Static method `initAll()`. -/
def initAll (w : World) : Outcome :=
  forEach w.dropdownElements initElement w

/-! ## Vocabulary of the specification -/

/-- A well-formed instance: the constructor found both a trigger and a menu. -/
def wellFormed (w : World) (this : Ref) : Bool :=
  (w.insts this).toggle.isSome && (w.insts this).menu.isSome

/-- The three state-machine methods a caller can invoke. -/
inductive Call where
  | openCall
  | closeCall
  | toggleCall
  deriving DecidableEq, Repr

/-- Run one method on the instance `this`. -/
def Call.run (c : Call) (w : World) (this : Ref) : Outcome :=
  match c with
  | .openCall => openDropdown w this
  | .closeCall => closeDropdown w this
  | .toggleCall => toggleDropdown w this

/-- Run a sequence of method calls, each on its own instance, one after the
other.  A call that throws ends alone: the next call starts from the world it
left. -/
def runCalls (w : World) : List (Call × Ref) → World
  | [] => w
  | (c, this) :: rest => runCalls (c.run w this).world rest

/-- Run a sequence of method calls on the one instance `this`. -/
def runOn (w : World) (this : Ref) (cs : List Call) : World :=
  runCalls w (cs.map fun c => (c, this))

/-- One transition of the state machine of the specification (section 4.2),
on the state "is open": `open()` leads to `Open`, `close()` to `Closed`, and
`toggle()` dispatches to the one or the other on the current state. -/
def specStep (isOpen : Bool) : Call → Bool
  | .openCall => true
  | .closeCall => false
  | .toggleCall => !isOpen

/-- The state the specification's state machine reaches from `isOpen`. -/
def specRun (isOpen : Bool) : List Call → Bool
  | [] => isOpen
  | c :: rest => specRun (specStep isOpen c) rest

/-- The kind of the most recent state-changing call of a sequence, in the
specification's state machine started in `isOpen`: a call changes the state
when its transition leaves the state it starts in, and it is an open
(`some true`) when it leads to `Open` and a close (`some false`) when it leads
to `Closed`; `seen` stands for the calls before the sequence. -/
def specLastChange (isOpen : Bool) (seen : Option Bool) : List Call → Option Bool
  | [] => seen
  | c :: rest =>
    specLastChange (specStep isOpen c)
      (if specStep isOpen c != isOpen then some (specStep isOpen c) else seen) rest

/-- Every registered instance that is open is well formed. -/
def openAreWellFormed (w : World) : Prop :=
  ∀ j ∈ w.instances, (w.insts j).isOpen = true → wellFormed w j = true

/-- At most one registered instance is open. -/
def atMostOneOpen (w : World) : Prop :=
  ∀ a ∈ w.instances, ∀ b ∈ w.instances,
    (w.insts a).isOpen = true → (w.insts b).isOpen = true → a = b

/-- Every registered instance is closed. -/
def allClosed (w : World) : Prop :=
  ∀ j ∈ w.instances, (w.insts j).isOpen = false

/-- The registry lists every instance once and only objects that were allocated:
the state `initAll` and `destroy` maintain. -/
def consistent (w : World) : Prop :=
  w.instances.Nodup ∧ ∀ j ∈ w.instances, j < w.nextInst

/-- The binding marker `element.vanillaDropdown`. -/
def marker (w : World) (element : Ref) : Option Ref :=
  (w.elems element).vanillaDropdown

/-- The part of the world `new VanillaDropdown(...)` does not touch, apart from
allocating the new object: the registry, the discovery answer, the binding
markers, the structural query answers and the objects that already exist. -/
structure Built (n : Nat) (w v : World) : Prop where
  instances : v.instances = w.instances
  dropdownElements : v.dropdownElements = w.dropdownElements
  nextInst : v.nextInst = n
  marker : ∀ r, (v.elems r).vanillaDropdown = (w.elems r).vanillaDropdown
  toggleQuery : ∀ r, (v.elems r).toggleQuery = (w.elems r).toggleQuery
  menuQuery : ∀ r, (v.elems r).menuQuery = (w.elems r).menuQuery
  anchors : ∀ r, (v.elems r).anchors = (w.elems r).anchors
  insts : ∀ k, k < w.nextInst → v.insts k = w.insts k

/-- The part of the world `openDropdown`, `closeDropdown` and `toggleDropdown`
never change: the registry, the allocation counter, the discovery answer, the
binding markers and the references an instance holds. -/
structure Framed (w v : World) : Prop where
  instances : v.instances = w.instances
  nextInst : v.nextInst = w.nextInst
  dropdownElements : v.dropdownElements = w.dropdownElements
  marker : ∀ r, (v.elems r).vanillaDropdown = (w.elems r).vanillaDropdown
  element : ∀ k, (v.insts k).element = (w.insts k).element
  toggle : ∀ k, (v.insts k).toggle = (w.insts k).toggle
  menu : ∀ k, (v.insts k).menu = (w.insts k).menu

/-- The instance `this` holds `toggle`, `menu` and `element`, its flag is `b`,
and the three mirrored facts say `b` too. -/
structure Sync (this toggle menu element : Ref) (b : Bool) (v : World) : Prop where
  toggle_eq : (v.insts this).toggle = some toggle
  menu_eq : (v.insts this).menu = some menu
  element_eq : (v.insts this).element = element
  flag : (v.insts this).isOpen = b
  showFlag : "show" ∈ (v.elems menu).classList ↔ b = true
  activeFlag : "active" ∈ (v.elems element).classList ↔ b = true
  aria : (v.elems toggle).attributes "aria-expanded" = some (if b then "true" else "false")

/-- What one run of the loop body of `initAll` does to an unbound element. -/
structure Bound (w : World) (x : Ref) (v : World) : Prop where
  nextInst : v.nextInst = w.nextInst + 1
  instances : v.instances = w.instances ++ [w.nextInst]
  dropdownElements : v.dropdownElements = w.dropdownElements
  marker : ∀ r, marker v r = if r = x then some w.nextInst else marker w r
  insts : ∀ k, k < w.nextInst → v.insts k = w.insts k
  element : (v.insts w.nextInst).element = x

/-- The registry and the markers of the containers in `L` describe one and the
same binding. -/
structure Census (L : List Ref) (v : World) : Prop where
  nodup : v.instances.Nodup
  alloc : ∀ j ∈ v.instances, j < v.nextInst
  owns : ∀ j ∈ v.instances, marker v (v.insts j).element = some j
  within : ∀ j ∈ v.instances, (v.insts j).element ∈ L
  back : ∀ r ∈ L, ∀ j, marker v r = some j → j ∈ v.instances ∧ (v.insts j).element = r

/-! ## Test fixtures -/

/-- An element with no classes, attributes or sub-elements. -/
def Element.blank : Element :=
  { tagName := "DIV", classList := [], attributes := fun _ => none, href := "",
    textContent := "", vanillaDropdown := none, toggleQuery := none, menuQuery := none,
    anchors := [], rendered := true, nativeFocus := false }

/-- An instance slot that was never allocated. -/
def Instance.blank : Instance :=
  { element := 0, options := Obj.empty, toggle := none, menu := none, isOpen := false,
    selectedValue := .null, selectedText := .null }

/-- A link with the given `data-value` attribute, link target and text. -/
def Element.anchor (dataValue : Option String) (href text : String) : Element :=
  { Element.blank with
    tagName := "A"
    href := href
    textContent := text
    nativeFocus := true
    attributes := fun k => if k = "data-value" then dataValue else none }

/-- A container with the given classes, sub-elements and `data-trigger`. -/
def Element.container (classes : List String) (toggle menu : Option Ref) (items : List Ref)
    (dataTrigger : Option String) : Element :=
  { Element.blank with
    classList := classes
    toggleQuery := toggle
    menuQuery := menu
    anchors := items
    attributes := fun k => if k = "data-trigger" then dataTrigger else none }

/-- An anchor without `href` and without `tabindex`. -/
def Element.bareAnchor (text : String) : Element :=
  { Element.blank with
    tagName := "A"
    textContent := text }

/-- A toggle button. -/
def Element.button (text : String) : Element :=
  { Element.blank with
    tagName := "BUTTON"
    nativeFocus := true
    classList := ["dropdown-toggle"]
    textContent := text }

/-- A menu panel holding the given items. -/
def Element.panel (items : List Ref) : Element :=
  { Element.blank with
    classList := ["dropdown-menu"]
    anchors := items }

/-- The elements of `page`. -/
def pageElems : Ref → Element
  | 0 => Element.container ["dropdown"] (some 1) (some 2) [3, 4] none
  | 1 => Element.button "Options"
  | 2 => Element.panel [3, 4]
  | 3 => Element.anchor (some "b") "http://h/#" " Beta "
  | 4 => Element.anchor (some "") "http://h/#x" "Gamma"
  | 5 => Element.container ["dropdown"] (some 6) (some 7) [] (some "hover")
  | 6 => Element.button "More"
  | 7 => Element.panel []
  | 8 => Element.container ["host"] (some 9) none [] none
  | 9 => Element.button "Broken"
  | 10 => Element.container ["host"] (some 11) (some 12) [] none
  | 11 => Element.button "Manual"
  | 12 => Element.panel []
  | _ => Element.blank

/-- A page with two dropdown containers and nothing bound yet.  Container `0`
has toggle `1` and menu `2` with the items `3` (`data-value="b"`, text
`" Beta "`) and `4` (`data-value=""`, link target `"http://h/#x"`); container
`5` is marked `data-trigger="hover"` and has toggle `6` and menu `7` without
items.  The elements `8` and `10` do not carry the class `dropdown`, so the
discovery query does not return them: `8` has a toggle `9` and no menu, `10`
has toggle `11` and menu `12`. -/
def page : World :=
  { elems := pageElems
    insts := fun _ => Instance.blank
    nextInst := 0
    instances := []
    dropdownElements := [0, 5]
    activeElement := none
    listeners := []
    emitted := []
    warnings := [] }

/-- The page after the automatic `initAll()`: instances `0` and `1` are bound
to the containers `0` and `5`. -/
def bound : World := (initAll page).world

/-- The options object `{ trigger: 'click' }`. -/
def clickOptions : Obj := Obj.empty.set "trigger" (.str "click")

/-- The world after `new VanillaDropdown(el8)` on the page, where container `8`
has no menu: the new instance is `0`. -/
def inert : World := (construct page 8 Obj.empty).world

/-- The page with the class `dropdown` on container `8` as well, so that the
discovery query returns the container without a menu. -/
def brokenPage : World :=
  { page with
    elems := fun r =>
      if r = 8 then Element.container ["dropdown"] (some 9) none [] none else pageElems r
    dropdownElements := [0, 5, 8] }

/-- The broken page after the automatic `initAll()`: instance `2` is bound to
the container without a menu. -/
def broken : World := (initAll brokenPage).world

/-- The broken page after `openDropdown()` was called on the malformed
instance `2`: the call threw and left `isOpen` set on it. -/
def jammed : World := (openDropdown broken 2).world

/-- The bound page with the focus on the last item `4` of the menu `2`. -/
def focused : World :=
  { bound with activeElement := some 4 }

/-- The bound page after an anchor `13` without `href` and `tabindex` was
appended to the menu `2`, with the focus on the item `4`. -/
def late : World :=
  { bound with
    elems := fun r =>
      if r = 2 then { bound.elems 2 with anchors := [3, 4, 13] }
      else if r = 13 then Element.bareAnchor "Late"
      else bound.elems r
    activeElement := some 4 }

/-- The world after `new VanillaDropdown(el10, {})` on the bound page: the
explicitly constructed instance is `2`. -/
def manual : World := (construct bound 10 Obj.empty).world

/-! ## Basic facts about the heap operations -/

@[simp] theorem setElem_elems (w : World) (r : Ref) (f : Element → Element) (k : Ref) :
    (w.setElem r f).elems k = if k = r then f (w.elems k) else w.elems k := rfl

@[simp] theorem setElem_insts (w : World) (r : Ref) (f : Element → Element) :
    (w.setElem r f).insts = w.insts := rfl

@[simp] theorem setElem_instances (w : World) (r : Ref) (f : Element → Element) :
    (w.setElem r f).instances = w.instances := rfl

@[simp] theorem setElem_nextInst (w : World) (r : Ref) (f : Element → Element) :
    (w.setElem r f).nextInst = w.nextInst := rfl

@[simp] theorem setElem_dropdownElements (w : World) (r : Ref) (f : Element → Element) :
    (w.setElem r f).dropdownElements = w.dropdownElements := rfl

@[simp] theorem setElem_activeElement (w : World) (r : Ref) (f : Element → Element) :
    (w.setElem r f).activeElement = w.activeElement := rfl

@[simp] theorem setInst_insts (w : World) (r : Ref) (f : Instance → Instance) (k : Ref) :
    (w.setInst r f).insts k = if k = r then f (w.insts k) else w.insts k := rfl

@[simp] theorem setInst_elems (w : World) (r : Ref) (f : Instance → Instance) :
    (w.setInst r f).elems = w.elems := rfl

@[simp] theorem setInst_instances (w : World) (r : Ref) (f : Instance → Instance) :
    (w.setInst r f).instances = w.instances := rfl

@[simp] theorem setInst_nextInst (w : World) (r : Ref) (f : Instance → Instance) :
    (w.setInst r f).nextInst = w.nextInst := rfl

@[simp] theorem setInst_dropdownElements (w : World) (r : Ref) (f : Instance → Instance) :
    (w.setInst r f).dropdownElements = w.dropdownElements := rfl

@[simp] theorem setInst_activeElement (w : World) (r : Ref) (f : Instance → Instance) :
    (w.setInst r f).activeElement = w.activeElement := rfl

@[simp] theorem addListener_elems (w : World) (l : Listener) :
    (w.addListener l).elems = w.elems := rfl

@[simp] theorem addListener_insts (w : World) (l : Listener) :
    (w.addListener l).insts = w.insts := rfl

@[simp] theorem addListener_instances (w : World) (l : Listener) :
    (w.addListener l).instances = w.instances := rfl

@[simp] theorem addListener_nextInst (w : World) (l : Listener) :
    (w.addListener l).nextInst = w.nextInst := rfl

@[simp] theorem addListener_dropdownElements (w : World) (l : Listener) :
    (w.addListener l).dropdownElements = w.dropdownElements := rfl

@[simp] theorem emit_elems (w : World) (n : Notification) :
    (w.emit n).elems = w.elems := rfl

@[simp] theorem emit_insts (w : World) (n : Notification) :
    (w.emit n).insts = w.insts := rfl

@[simp] theorem emit_instances (w : World) (n : Notification) :
    (w.emit n).instances = w.instances := rfl

@[simp] theorem emit_nextInst (w : World) (n : Notification) :
    (w.emit n).nextInst = w.nextInst := rfl

@[simp] theorem emit_dropdownElements (w : World) (n : Notification) :
    (w.emit n).dropdownElements = w.dropdownElements := rfl

@[simp] theorem emit_activeElement (w : World) (n : Notification) :
    (w.emit n).activeElement = w.activeElement := rfl

@[simp] theorem world_done (w : World) : (Outcome.done w).world = w := rfl

@[simp] theorem world_threw (w : World) : (Outcome.threw w).world = w := rfl

@[simp] theorem completed_done (w : World) : (Outcome.done w).completed = true := rfl

@[simp] theorem completed_threw (w : World) : (Outcome.threw w).completed = false := rfl

@[simp] theorem andThen_done (w : World) (f : World → Outcome) :
    (Outcome.done w).andThen f = f w := rfl

@[simp] theorem andThen_threw (w : World) (f : World → Outcome) :
    (Outcome.threw w).andThen f = .threw w := rfl

theorem completed_iff_done (r : Outcome) : r.completed = true ↔ r = .done r.world := by
  cases r <;> simp

@[simp] theorem mem_classListAdd (cl : List String) (c d : String) :
    d ∈ classListAdd cl c ↔ d ∈ cl ∨ d = c := by
  unfold classListAdd
  split
  · constructor
    · exact Or.inl
    · rintro (h | rfl)
      · exact h
      · assumption
  · simp

@[simp] theorem mem_classListRemove (cl : List String) (c d : String) :
    d ∈ classListRemove cl c ↔ d ∈ cl ∧ d ≠ c := by
  simp [classListRemove]

@[simp] theorem addClass_classList (e : Element) (c : String) :
    (e.addClass c).classList = classListAdd e.classList c := rfl

@[simp] theorem removeClass_classList (e : Element) (c : String) :
    (e.removeClass c).classList = classListRemove e.classList c := rfl

@[simp] theorem addClass_attributes (e : Element) (c : String) :
    (e.addClass c).attributes = e.attributes := rfl

@[simp] theorem removeClass_attributes (e : Element) (c : String) :
    (e.removeClass c).attributes = e.attributes := rfl

@[simp] theorem addClass_vanillaDropdown (e : Element) (c : String) :
    (e.addClass c).vanillaDropdown = e.vanillaDropdown := rfl

@[simp] theorem removeClass_vanillaDropdown (e : Element) (c : String) :
    (e.removeClass c).vanillaDropdown = e.vanillaDropdown := rfl

@[simp] theorem setAttribute_classList (e : Element) (k v : String) :
    (e.setAttribute k v).classList = e.classList := rfl

@[simp] theorem setAttribute_attributes (e : Element) (k v j : String) :
    (e.setAttribute k v).attributes j = if j = k then some v else e.attributes j := rfl

@[simp] theorem setAttribute_vanillaDropdown (e : Element) (k v : String) :
    (e.setAttribute k v).vanillaDropdown = e.vanillaDropdown := rfl

@[simp] theorem setAttribute_anchors (e : Element) (k v : String) :
    (e.setAttribute k v).anchors = e.anchors := rfl

@[simp] theorem setAttribute_toggleQuery (e : Element) (k v : String) :
    (e.setAttribute k v).toggleQuery = e.toggleQuery := rfl

@[simp] theorem setAttribute_menuQuery (e : Element) (k v : String) :
    (e.setAttribute k v).menuQuery = e.menuQuery := rfl

/-- Induction over `forEach`: a property of the world that every run of the
callback preserves holds of the world the loop leaves, thrown or not. -/
theorem forEach_preserves (P : World → Prop) (f : World → Ref → Outcome) (xs : List Ref)
    (step : ∀ v x, x ∈ xs → P v → P (f v x).world) (w : World) (h : P w) :
    P (forEach xs f w).world := by
  induction xs generalizing w with
  | nil => simpa [forEach] using h
  | cons x rest ih =>
    have hx := step w x (List.mem_cons_self x rest) h
    unfold forEach
    cases hfx : f w x with
    | done w1 =>
      rw [hfx] at hx
      exact ih (fun v y hy => step v y (List.mem_cons_of_mem x hy)) w1 hx
    | threw w1 =>
      rw [hfx] at hx
      simpa using hx

/-- One turn of the loop when the callback completes. -/
theorem forEach_cons_completed (f : World → Ref → Outcome) (x : Ref) (rest : List Ref)
    (w : World) (h : (f w x).completed = true) :
    forEach (x :: rest) f w = forEach rest f (f w x).world := by
  conv_lhs => unfold forEach
  cases hfx : f w x with
  | done w1 => rfl
  | threw w1 => rw [hfx] at h; simp at h

/-- A loop whose callback always completes, completes. -/
theorem forEach_completes (P : World → Prop) (f : World → Ref → Outcome) (xs : List Ref)
    (step : ∀ v x, x ∈ xs → P v → (f v x).completed = true ∧ P (f v x).world)
    (w : World) (h : P w) : (forEach xs f w).completed = true := by
  induction xs generalizing w with
  | nil => simp [forEach]
  | cons x rest ih =>
    have hx := step w x (List.mem_cons_self x rest) h
    unfold forEach
    cases hfx : f w x with
    | done w1 =>
      rw [hfx] at hx
      exact ih (fun v y hy => step v y (List.mem_cons_of_mem x hy)) w1 hx.2
    | threw w1 =>
      rw [hfx] at hx
      simp at hx

/-- Sequencing keeps a property that both parts keep. -/
theorem andThen_preserves (P : World → Prop) (r : Outcome) (f : World → Outcome)
    (hr : P r.world) (hf : ∀ v, P v → P (f v).world) : P (r.andThen f).world := by
  cases r with
  | done v => exact hf v hr
  | threw v => exact hr

/-- Sequencing completes when both parts do. -/
theorem andThen_completes (P : World → Prop) (r : Outcome) (f : World → Outcome)
    (hc : r.completed = true) (hr : P r.world)
    (hf : ∀ v, P v → (f v).completed = true) : (r.andThen f).completed = true := by
  cases r with
  | done v => exact hf v hr
  | threw v => simp at hc

/-! ## What construction leaves alone -/

theorem Built.addListener {n : Nat} {w v : World} (h : Built n w v) (l : Listener) :
    Built n w (v.addListener l) :=
  ⟨h.instances, h.dropdownElements, h.nextInst, h.marker, h.toggleQuery, h.menuQuery,
    h.anchors, h.insts⟩

theorem Built.setAttribute {n : Nat} {w v : World} (h : Built n w v) (r : Ref)
    (f : Element → Element)
    (hf : ∀ e, (f e).vanillaDropdown = e.vanillaDropdown ∧ (f e).toggleQuery = e.toggleQuery ∧
      (f e).menuQuery = e.menuQuery ∧ (f e).anchors = e.anchors) :
    Built n w (v.setElem r f) := by
  refine ⟨h.instances, h.dropdownElements, h.nextInst, ?_, ?_, ?_, ?_, h.insts⟩
  · intro k
    simp only [setElem_elems]
    split
    · rw [(hf _).1, h.marker]
    · exact h.marker k
  · intro k
    simp only [setElem_elems]
    split
    · rw [(hf _).2.1, h.toggleQuery]
    · exact h.toggleQuery k
  · intro k
    simp only [setElem_elems]
    split
    · rw [(hf _).2.2.1, h.menuQuery]
    · exact h.menuQuery k
  · intro k
    simp only [setElem_elems]
    split
    · rw [(hf _).2.2.2, h.anchors]
    · exact h.anchors k

theorem setupEventListeners_built {n : Nat} {w v : World} (this : Ref) (h : Built n w v) :
    Built n w (setupEventListeners v this).world := by
  unfold setupEventListeners
  simp only
  apply andThen_preserves (Built n w)
  · split_ifs
    · split
      · exact h
      · exact h.addListener _
    · exact (h.addListener _).addListener _
    · exact h
  · intro u hu
    split
    · split_ifs
      · exact (hu.addListener _).addListener _
      · exact hu.addListener _
    · split_ifs
      · exact ((hu.addListener _).addListener _).addListener _
      · exact (hu.addListener _).addListener _

theorem setupAccessibility_built {n : Nat} {w v : World} (this : Ref) (h : Built n w v) :
    Built n w (setupAccessibility v this).world := by
  unfold setupAccessibility
  simp only
  split
  · exact h
  · split
    · simp only [world_threw]
      exact h.setAttribute _ _ (by intro e; exact ⟨rfl, rfl, rfl, rfl⟩)
    · apply andThen_preserves (Built n w)
      · apply forEach_preserves (Built n w)
        · intro u x _ hu
          simp only [markMenuItem, world_done]
          exact hu.setAttribute _ _ (by intro e; exact ⟨rfl, rfl, rfl, rfl⟩)
        · exact (h.setAttribute _ _ (by intro e; exact ⟨rfl, rfl, rfl, rfl⟩)).setAttribute _ _
            (by intro e; exact ⟨rfl, rfl, rfl, rfl⟩)
      · intro u hu
        exact (hu.addListener _).addListener _

theorem init_built {n : Nat} {w v : World} (this : Ref) (h : Built n w v) :
    Built n w (init v this).world := by
  unfold init
  simp only
  split
  · exact ⟨h.instances, h.dropdownElements, h.nextInst, h.marker, h.toggleQuery,
      h.menuQuery, h.anchors, h.insts⟩
  · apply andThen_preserves (Built n w)
    · exact setupEventListeners_built this h
    · intro u hu
      exact setupAccessibility_built this hu

theorem construct_built (w : World) (element : Ref) (options : Obj) :
    Built (w.nextInst + 1) w (construct w element options).world := by
  unfold construct
  simp only
  apply init_built
  refine ⟨rfl, rfl, rfl, fun _ => rfl, fun _ => rfl, fun _ => rfl, fun _ => rfl, ?_⟩
  intro k hk
  simp only
  rw [if_neg (Nat.ne_of_lt hk)]

theorem construct_instances (w : World) (element : Ref) (options : Obj) :
    (construct w element options).world.instances = w.instances :=
  (construct_built w element options).instances

theorem setupEventListeners_insts (v : World) (this : Ref) :
    (setupEventListeners v this).world.insts = v.insts := by
  unfold setupEventListeners
  simp only
  apply andThen_preserves (fun u => u.insts = v.insts)
  · split_ifs
    · split <;> rfl
    · rfl
    · rfl
  · intro u hu
    split <;> split_ifs <;> simpa using hu

theorem setupAccessibility_insts (v : World) (this : Ref) :
    (setupAccessibility v this).world.insts = v.insts := by
  unfold setupAccessibility
  simp only
  split
  · rfl
  · split
    · rfl
    · apply andThen_preserves (fun u => u.insts = v.insts)
      · apply forEach_preserves (fun u => u.insts = v.insts)
        · intro u x _ hu
          simpa [markMenuItem] using hu
        · rfl
      · intro u hu
        simpa using hu

theorem init_insts (v : World) (this : Ref) : (init v this).world.insts = v.insts := by
  unfold init
  simp only
  split
  · rfl
  · apply andThen_preserves (fun u => u.insts = v.insts)
    · exact setupEventListeners_insts v this
    · intro u hu
      rw [setupAccessibility_insts, hu]

theorem setupEventListeners_completes (v : World) (this toggle menu : Ref)
    (ht : (v.insts this).toggle = some toggle) (hm : (v.insts this).menu = some menu) :
    (setupEventListeners v this).completed = true := by
  unfold setupEventListeners
  simp only [ht, hm]
  split_ifs <;> rfl

theorem setupAccessibility_completes (v : World) (this toggle menu : Ref)
    (ht : (v.insts this).toggle = some toggle) (hm : (v.insts this).menu = some menu) :
    (setupAccessibility v this).completed = true := by
  unfold setupAccessibility
  simp only [ht, hm]
  apply andThen_completes (fun _ => True)
  · apply forEach_completes (fun _ => True)
    · intro u x _ _
      exact ⟨rfl, trivial⟩
    · trivial
  · trivial
  · intro u _
    rfl

theorem init_completes (v : World) (this : Ref) : (init v this).completed = true := by
  unfold init
  simp only
  split
  · rfl
  · rename_i hguard
    simp only [Bool.or_eq_true, Option.isNone_iff_eq_none, not_or] at hguard
    obtain ⟨toggle, ht⟩ := Option.ne_none_iff_exists'.mp hguard.1
    obtain ⟨menu, hm⟩ := Option.ne_none_iff_exists'.mp hguard.2
    apply andThen_completes (fun u => u.insts = v.insts)
    · exact setupEventListeners_completes v this toggle menu ht hm
    · exact setupEventListeners_insts v this
    · intro u hu
      apply setupAccessibility_completes u this toggle menu
      · rw [hu]; exact ht
      · rw [hu]; exact hm

/-- The constructor never throws. -/
theorem construct_completes (w : World) (element : Ref) (options : Obj) :
    (construct w element options).completed = true := by
  unfold construct
  exact init_completes _ _

/-- The object the constructor allocates, as the constructor body initialises it. -/
theorem construct_new_instance (w : World) (element : Ref) (options : Obj) :
    (construct w element options).world.insts w.nextInst =
      { element := element
        options := resolveOptions (w.elems element) options
        toggle := (w.elems element).toggleQuery
        menu := (w.elems element).menuQuery
        isOpen := false
        selectedValue := .null
        selectedText := .null } := by
  unfold construct
  simp only
  rw [init_insts]
  simp

/-! ## What the state machine leaves alone -/

theorem Framed.refl (w : World) : Framed w w :=
  ⟨rfl, rfl, rfl, fun _ => rfl, fun _ => rfl, fun _ => rfl, fun _ => rfl⟩

theorem Framed.trans {u v w : World} (h1 : Framed u v) (h2 : Framed v w) : Framed u w :=
  ⟨h2.instances.trans h1.instances, h2.nextInst.trans h1.nextInst,
    h2.dropdownElements.trans h1.dropdownElements,
    fun r => (h2.marker r).trans (h1.marker r),
    fun k => (h2.element k).trans (h1.element k),
    fun k => (h2.toggle k).trans (h1.toggle k),
    fun k => (h2.menu k).trans (h1.menu k)⟩

theorem Framed.setIsOpen {w v : World} (h : Framed w v) (k : Ref) (b : Bool) :
    Framed w (v.setInst k (fun s => { s with isOpen := b })) := by
  refine ⟨h.instances, h.nextInst, h.dropdownElements, h.marker, ?_, ?_, ?_⟩
  · intro j
    simp only [setInst_insts]
    split
    · exact h.element j
    · exact h.element j
  · intro j
    simp only [setInst_insts]
    split
    · exact h.toggle j
    · exact h.toggle j
  · intro j
    simp only [setInst_insts]
    split
    · exact h.menu j
    · exact h.menu j

theorem Framed.setElem {w v : World} (h : Framed w v) (r : Ref) (f : Element → Element)
    (hf : ∀ e, (f e).vanillaDropdown = e.vanillaDropdown) : Framed w (v.setElem r f) := by
  refine ⟨h.instances, h.nextInst, h.dropdownElements, ?_, h.element, h.toggle, h.menu⟩
  intro k
  simp only [setElem_elems]
  split
  · rw [hf, h.marker]
  · exact h.marker k

theorem Framed.emit {w v : World} (h : Framed w v) (n : Notification) :
    Framed w (v.emit n) :=
  ⟨h.instances, h.nextInst, h.dropdownElements, h.marker, h.element, h.toggle, h.menu⟩

theorem Framed.wellFormed_eq {w v : World} (h : Framed w v) (k : Ref) :
    wellFormed v k = wellFormed w k := by
  unfold wellFormed
  rw [h.toggle, h.menu]

theorem closeDropdown_framed {w v : World} (this : Ref) (h : Framed w v) :
    Framed w (closeDropdown v this).world := by
  unfold closeDropdown
  simp only
  split
  · exact h
  · split
    · exact h.setIsOpen _ _
    · split
      · simp only [world_threw]
        exact ((h.setIsOpen _ _).setElem _ _ (by intro _; rfl)).setElem _ _ (by intro _; rfl)
      · simp only [world_done]
        exact (((((h.setIsOpen _ _).setElem _ _ (by intro _; rfl)).setElem _ _
          (by intro _; rfl)).setElem _ _ (by intro _; rfl)).emit _)

/-- After `closeDropdown` the instance is closed, thrown or not, and no other
instance changed its flag. -/
theorem closeDropdown_isOpen (w : World) (this j : Ref) :
    ((closeDropdown w this).world.insts j).isOpen =
      if j = this then false else (w.insts j).isOpen := by
  unfold closeDropdown
  by_cases hj : j = this
  · subst hj
    simp only [if_true]
    split
    · rename_i hc
      simpa using hc
    · split
      · simp
      · split <;> simp
  · simp only [if_neg hj]
    split
    · rfl
    · split
      · simp [hj]
      · split <;> simp [hj]

/-- Closing a well-formed instance never throws. -/
theorem closeDropdown_completes (w : World) (this : Ref) (h : wellFormed w this = true) :
    (closeDropdown w this).completed = true := by
  unfold wellFormed at h
  simp only [Bool.and_eq_true, Option.isSome_iff_exists] at h
  obtain ⟨⟨toggle, ht⟩, ⟨menu, hm⟩⟩ := h
  unfold closeDropdown
  split
  · rfl
  · simp [hm, ht]

theorem closeUnless_framed {w v : World} (except : Option Ref) (x : Ref) (h : Framed w v) :
    Framed w (closeUnless except v x).world := by
  unfold closeUnless
  split
  · exact closeDropdown_framed x h
  · exact h

theorem closeUnless_isOpen (except : Option Ref) (w : World) (x j : Ref) :
    ((closeUnless except w x).world.insts j).isOpen =
      if j = x ∧ some x ≠ except then false else (w.insts j).isOpen := by
  unfold closeUnless
  split
  · rename_i h
    rw [closeDropdown_isOpen]
    by_cases hj : j = x
    · simp [hj, h.1]
    · simp [hj]
  · rename_i h
    simp only [world_done]
    split
    · rename_i h2
      obtain ⟨rfl, hx⟩ := h2
      simpa [hx] using h
    · rfl

theorem closeUnless_completes (except : Option Ref) (w : World) (x : Ref)
    (h : wellFormed w x = true) : (closeUnless except w x).completed = true := by
  unfold closeUnless
  split
  · exact closeDropdown_completes w x h
  · rfl

theorem closeAllDropdowns_framed (w : World) (except : Option Ref) :
    Framed w (closeAllDropdowns w except).world := by
  unfold closeAllDropdowns
  apply forEach_preserves (Framed w)
  · intro v x _ hv
    exact closeUnless_framed except x hv
  · exact Framed.refl w

/-- With only well-formed instances registered, `closeAllDropdowns` never throws. -/
theorem closeAllDropdowns_completes (w : World) (except : Option Ref)
    (hwf : ∀ j ∈ w.instances, wellFormed w j = true) :
    (closeAllDropdowns w except).completed = true := by
  unfold closeAllDropdowns
  apply forEach_completes (Framed w)
  · intro v x hx hv
    refine ⟨closeUnless_completes except v x ?_, closeUnless_framed except x hv⟩
    rw [hv.wellFormed_eq]
    exact hwf x hx
  · exact Framed.refl w

/-- The flags after a loop of `closeUnless` that ran to its end. -/
theorem forEach_closeUnless_isOpen (except : Option Ref) (xs : List Ref) (w : World)
    (hc : (forEach xs (closeUnless except) w).completed = true) (j : Ref) :
    ((forEach xs (closeUnless except) w).world.insts j).isOpen =
      if j ∈ xs ∧ some j ≠ except then false else (w.insts j).isOpen := by
  induction xs generalizing w with
  | nil => simp [forEach]
  | cons x rest ih =>
    unfold forEach at hc ⊢
    have hx := closeUnless_isOpen except w x j
    cases hfx : closeUnless except w x with
    | threw w1 => rw [hfx] at hc; simp at hc
    | done w1 =>
      rw [hfx] at hc hx
      simp only [world_done] at hx hc ⊢
      rw [ih w1 hc, hx]
      by_cases h1 : j = x
      · subst h1
        by_cases h2 : some j = except <;> simp [h2]
      · simp [h1]

/-- The flags after `closeAllDropdowns` when only well-formed instances are
registered: every registered instance other than `except` is closed, every
other flag is as before. -/
theorem closeAllDropdowns_isOpen (w : World) (except : Option Ref)
    (hwf : ∀ j ∈ w.instances, wellFormed w j = true) (j : Ref) :
    ((closeAllDropdowns w except).world.insts j).isOpen =
      if j ∈ w.instances ∧ some j ≠ except then false else (w.insts j).isOpen :=
  forEach_closeUnless_isOpen except w.instances w (closeAllDropdowns_completes w except hwf) j

theorem closeAllDropdowns_done (w : World) (except : Option Ref)
    (hwf : ∀ j ∈ w.instances, wellFormed w j = true) :
    closeAllDropdowns w except = .done (closeAllDropdowns w except).world :=
  (completed_iff_done _).mp (closeAllDropdowns_completes w except hwf)

theorem openDropdown_framed {w v : World} (this : Ref) (h : Framed w v) :
    Framed w (openDropdown v this).world := by
  unfold openDropdown
  split
  · exact h
  · apply andThen_preserves (Framed w)
    · exact h.trans (closeAllDropdowns_framed v (some this))
    · intro u hu
      simp only
      split
      · exact hu.setIsOpen _ _
      · split
        · simp only [world_threw]
          exact ((hu.setIsOpen _ _).setElem _ _ (by intro _; rfl)).setElem _ _
            (by intro _; rfl)
        · simp only [world_done]
          exact (((((hu.setIsOpen _ _).setElem _ _ (by intro _; rfl)).setElem _ _
            (by intro _; rfl)).setElem _ _ (by intro _; rfl)).emit _)

theorem toggleDropdown_framed {w v : World} (this : Ref) (h : Framed w v) :
    Framed w (toggleDropdown v this).world := by
  unfold toggleDropdown
  split
  · exact closeDropdown_framed this h
  · exact openDropdown_framed this h

theorem Call.run_framed {w v : World} (c : Call) (this : Ref) (h : Framed w v) :
    Framed w (c.run v this).world := by
  cases c
  · exact openDropdown_framed this h
  · exact closeDropdown_framed this h
  · exact toggleDropdown_framed this h

/-- Opening a closed well-formed instance in a registry of well-formed
instances completes; afterwards it is open and every other registered
instance is closed. -/
theorem openDropdown_closed (w : World) (this : Ref)
    (hwf : ∀ j ∈ w.instances, wellFormed w j = true) (hthis : wellFormed w this = true)
    (hclosed : (w.insts this).isOpen = false) :
    (openDropdown w this).completed = true ∧
    ∀ j, ((openDropdown w this).world.insts j).isOpen =
      if j = this then true else if j ∈ w.instances then false else (w.insts j).isOpen := by
  have hfr := closeAllDropdowns_framed w (some this)
  have hop := closeAllDropdowns_isOpen w (some this) hwf
  have hwf2 : wellFormed (closeAllDropdowns w (some this)).world this = true := by
    rw [hfr.wellFormed_eq]; exact hthis
  unfold wellFormed at hwf2
  simp only [Bool.and_eq_true, Option.isSome_iff_exists] at hwf2
  obtain ⟨⟨toggle, ht⟩, ⟨menu, hm⟩⟩ := hwf2
  unfold openDropdown
  rw [closeAllDropdowns_done w (some this) hwf]
  simp only [hclosed, Bool.false_eq_true, if_false, andThen_done, setInst_insts, if_true,
    setElem_insts, hm, ht, completed_done, world_done, emit_insts, true_and]
  intro j
  by_cases hj : j = this
  · simp [hj]
  · simp only [if_neg hj]
    rw [hop j]
    by_cases hmem : j ∈ w.instances
    · have : some j ≠ some this := by simpa using hj
      simp [hmem, this]
    · simp [hmem]

/-! ## Mutual exclusion (C1) -/

theorem openDropdown_atMostOneOpen (w : World) (this : Ref)
    (hwf : ∀ j ∈ w.instances, wellFormed w j = true) (hthis : this ∈ w.instances)
    (h : atMostOneOpen w) :
    (openDropdown w this).completed = true ∧
    ∀ j ∈ w.instances, (((openDropdown w this).world.insts j).isOpen = true ↔ j = this) := by
  by_cases hopen : (w.insts this).isOpen = true
  · have hdone : openDropdown w this = .done w := by
      unfold openDropdown
      simp [hopen]
    rw [hdone]
    refine ⟨rfl, ?_⟩
    intro j hj
    simp only [world_done]
    constructor
    · intro hjo
      exact h j hj this hthis hjo hopen
    · rintro rfl
      exact hopen
  · simp only [Bool.not_eq_true] at hopen
    obtain ⟨hc, hflags⟩ := openDropdown_closed w this hwf (hwf this hthis) hopen
    refine ⟨hc, ?_⟩
    intro j hj
    rw [hflags j]
    by_cases hjt : j = this
    · simp [hjt]
    · simp [hjt, hj]

theorem Call.run_atMostOneOpen (c : Call) (w : World) (this : Ref)
    (hwf : ∀ j ∈ w.instances, wellFormed w j = true) (hthis : this ∈ w.instances)
    (h : atMostOneOpen w) : atMostOneOpen (c.run w this).world := by
  have hfr : Framed w (c.run w this).world := c.run_framed this (Framed.refl w)
  have hclose : atMostOneOpen (closeDropdown w this).world := by
    have hf := closeDropdown_framed this (Framed.refl w)
    intro a ha b hb hao hbo
    rw [hf.instances] at ha hb
    rw [closeDropdown_isOpen] at hao hbo
    split at hao
    · simp at hao
    · split at hbo
      · simp at hbo
      · exact h a ha b hb hao hbo
  have hopen : atMostOneOpen (openDropdown w this).world := by
    have hf := openDropdown_framed this (Framed.refl w)
    obtain ⟨_, hflags⟩ := openDropdown_atMostOneOpen w this hwf hthis h
    intro a ha b hb hao hbo
    rw [hf.instances] at ha hb
    rw [(hflags a ha).mp hao, (hflags b hb).mp hbo]
  cases c
  · exact hopen
  · exact hclose
  · show atMostOneOpen (toggleDropdown w this).world
    unfold toggleDropdown
    split
    · exact hclose
    · exact hopen

theorem runCalls_atMostOneOpen (calls : List (Call × Ref)) (w : World)
    (hwf : ∀ j ∈ w.instances, wellFormed w j = true)
    (hcalls : ∀ c ∈ calls, c.2 ∈ w.instances) (h : atMostOneOpen w) :
    (runCalls w calls).instances = w.instances ∧ atMostOneOpen (runCalls w calls) := by
  induction calls generalizing w with
  | nil => exact ⟨rfl, h⟩
  | cons c rest ih =>
    obtain ⟨c, this⟩ := c
    have hthis : this ∈ w.instances := hcalls (c, this) (List.mem_cons_self _ _)
    have hfr : Framed w (c.run w this).world := c.run_framed this (Framed.refl w)
    have hstep := c.run_atMostOneOpen w this hwf hthis h
    have hwf2 : ∀ j ∈ (c.run w this).world.instances,
        wellFormed (c.run w this).world j = true := by
      intro j hj
      rw [hfr.wellFormed_eq]
      rw [hfr.instances] at hj
      exact hwf j hj
    have hcalls2 : ∀ d ∈ rest, d.2 ∈ (c.run w this).world.instances := by
      intro d hd
      rw [hfr.instances]
      exact hcalls d (List.mem_cons_of_mem _ hd)
    obtain ⟨h1, h2⟩ := ih (c.run w this).world hwf2 hcalls2 hstep
    exact ⟨h1.trans hfr.instances, h2⟩

/-- Claim C1: in a registry of well-formed instances, (a) if at most one
registered instance is open, `openDropdown()` on a registered instance `i`
completes, leaves the registry as it is, and afterwards a registered instance
is open exactly when it is `i`; (b) starting with every registered instance
closed, after any sequence of `openDropdown`, `closeDropdown` and
`toggleDropdown` calls on registered instances the registry is unchanged and
at most one registered instance is open. -/
theorem mutual_exclusion (w : World) (hwf : ∀ j ∈ w.instances, wellFormed w j = true) :
    (∀ i ∈ w.instances, atMostOneOpen w →
      (openDropdown w i).completed = true ∧
      (openDropdown w i).world.instances = w.instances ∧
      ∀ j ∈ (openDropdown w i).world.instances,
        (((openDropdown w i).world.insts j).isOpen = true ↔ j = i)) ∧
    (allClosed w → ∀ calls : List (Call × Ref), (∀ c ∈ calls, c.2 ∈ w.instances) →
      (runCalls w calls).instances = w.instances ∧ atMostOneOpen (runCalls w calls)) := by
  constructor
  · intro i hi h
    have hfr := openDropdown_framed i (Framed.refl w)
    obtain ⟨hc, hflags⟩ := openDropdown_atMostOneOpen w i hwf hi h
    refine ⟨hc, hfr.instances, ?_⟩
    rw [hfr.instances]
    exact hflags
  · intro hclosed calls hcalls
    apply runCalls_atMostOneOpen calls w hwf hcalls
    intro a ha b _ hao _
    rw [hclosed a ha] at hao
    simp at hao

/-- Witness for C1 on the bound page: both registered instances are well formed
and closed; opening instance `1` and any run of calls keep mutual exclusion. -/
theorem mutual_exclusion_witness :
    (∀ j ∈ bound.instances, wellFormed bound j = true) ∧
    ((∀ i ∈ bound.instances, atMostOneOpen bound →
      (openDropdown bound i).completed = true ∧
      (openDropdown bound i).world.instances = bound.instances ∧
      ∀ j ∈ (openDropdown bound i).world.instances,
        (((openDropdown bound i).world.insts j).isOpen = true ↔ j = i)) ∧
    (allClosed bound → ∀ calls : List (Call × Ref), (∀ c ∈ calls, c.2 ∈ bound.instances) →
      (runCalls bound calls).instances = bound.instances ∧
      atMostOneOpen (runCalls bound calls))) :=
  ⟨by decide, mutual_exclusion bound (by decide)⟩

/-! ## State and attribute synchronisation (C2) -/

/-- Closing another instance leaves a closed, synchronised instance as it is,
whether that call throws or not. -/
theorem closeDropdown_keeps_closed {this toggle menu element : Ref} {v : World} (k : Ref)
    (hk : k ≠ this) (h : Sync this toggle menu element false v) :
    Sync this toggle menu element false (closeDropdown v k).world := by
  have hk2 : ¬ this = k := fun e => hk e.symm
  have hs := h.showFlag
  have ha := h.activeFlag
  have hr := h.aria
  simp only [Bool.false_eq_true, iff_false, if_false] at hs ha hr
  unfold closeDropdown
  simp only
  split
  · exact h
  · split
    · exact ⟨by simpa [hk2] using h.toggle_eq, by simpa [hk2] using h.menu_eq,
        by simpa [hk2] using h.element_eq, by simpa [hk2] using h.flag,
        by simpa using hs, by simpa using ha, by simpa using hr⟩
    · split
      · refine ⟨by simpa [hk2] using h.toggle_eq, by simpa [hk2] using h.menu_eq,
          by simpa [hk2] using h.element_eq, by simpa [hk2] using h.flag, ?_, ?_, ?_⟩
        · simp only [world_threw, setElem_elems, setInst_elems, Bool.false_eq_true, iff_false]
          split_ifs <;> simp [hs]
        · simp only [world_threw, setElem_elems, setInst_elems, Bool.false_eq_true, iff_false]
          split_ifs <;> simp [ha]
        · simp only [world_threw, setElem_elems, setInst_elems, Bool.false_eq_true, if_false]
          split_ifs <;> simp [hr]
      · refine ⟨by simpa [hk2] using h.toggle_eq, by simpa [hk2] using h.menu_eq,
          by simpa [hk2] using h.element_eq, by simpa [hk2] using h.flag, ?_, ?_, ?_⟩
        · simp only [world_done, emit_elems, setElem_elems, setInst_elems, Bool.false_eq_true,
            iff_false]
          split_ifs <;> simp [hs]
        · simp only [world_done, emit_elems, setElem_elems, setInst_elems, Bool.false_eq_true,
            iff_false]
          split_ifs <;> simp [ha]
        · simp only [world_done, emit_elems, setElem_elems, setInst_elems, Bool.false_eq_true,
            if_false]
          split_ifs <;> simp [hr]

theorem closeAllDropdowns_keeps_closed {this toggle menu element : Ref} {v : World}
    (h : Sync this toggle menu element false v) :
    Sync this toggle menu element false (closeAllDropdowns v (some this)).world := by
  unfold closeAllDropdowns
  apply forEach_preserves (Sync this toggle menu element false)
  · intro u x _ hu
    unfold closeUnless
    split
    · rename_i hx
      apply closeDropdown_keeps_closed x _ hu
      intro e
      exact hx.1 (by rw [e])
    · exact hu
  · exact h

/-- Closing a synchronised instance completes and leaves it closed and synchronised. -/
theorem closeDropdown_sync {this toggle menu element : Ref} {b : Bool} {v : World}
    (h : Sync this toggle menu element b v) :
    (closeDropdown v this).completed = true ∧
    Sync this toggle menu element false (closeDropdown v this).world := by
  unfold closeDropdown
  cases b with
  | false =>
    simp only [h.flag, Bool.not_false, if_true]
    exact ⟨rfl, h⟩
  | true =>
    simp only [h.flag, Bool.not_true, Bool.false_eq_true, if_false, setInst_insts, if_true,
      h.menu_eq, h.toggle_eq, h.element_eq, setElem_insts, completed_done, world_done, true_and]
    refine ⟨by simpa using h.toggle_eq, by simpa using h.menu_eq, by simpa using h.element_eq,
      by simp, ?_, ?_, ?_⟩
    · simp only [emit_elems, setElem_elems, setInst_elems, Bool.false_eq_true, iff_false]
      split_ifs <;> simp
    · simp only [emit_elems, setElem_elems, setInst_elems, Bool.false_eq_true, iff_false]
      split_ifs <;> simp
    · simp

/-- Opening a synchronised instance leaves it synchronised: open when the call
completes, untouched when `closeAllDropdowns` throws on its way. -/
theorem openDropdown_sync {this toggle menu element : Ref} {b : Bool} {v : World}
    (h : Sync this toggle menu element b v) :
    Sync this toggle menu element ((openDropdown v this).world.insts this).isOpen
      (openDropdown v this).world := by
  unfold openDropdown
  cases b with
  | true =>
    simp only [h.flag, if_true, world_done]
    exact h
  | false =>
    simp only [h.flag, Bool.false_eq_true, if_false]
    have hca := closeAllDropdowns_keeps_closed h
    cases hres : closeAllDropdowns v (some this) with
    | threw u =>
      rw [hres] at hca
      simp only [world_threw] at hca
      simp only [andThen_threw, world_threw, hca.flag]
      exact hca
    | done u =>
      rw [hres] at hca
      simp only [world_done] at hca
      have hs := hca.showFlag
      have ha := hca.activeFlag
      simp only [andThen_done, setInst_insts, if_true, hca.menu_eq, hca.toggle_eq,
        hca.element_eq, setElem_insts, world_done, emit_insts]
      refine ⟨by simpa using hca.toggle_eq, by simpa using hca.menu_eq,
        by simpa using hca.element_eq, by simp, ?_, ?_, ?_⟩
      · simp only [emit_elems, setElem_elems, setInst_elems, iff_true]
        split_ifs <;> simp
      · simp only [emit_elems, setElem_elems, setInst_elems, iff_true]
        split_ifs <;> simp
      · simp

/-- A registered instance that is open after `closeUnless` was open before. -/
theorem closeUnless_flag_mono (except : Option Ref) (v : World) (x j : Ref)
    (h : ((closeUnless except v x).world.insts j).isOpen = true) :
    (v.insts j).isOpen = true := by
  rw [closeUnless_isOpen] at h
  split at h
  · simp at h
  · exact h

/-- When every open registered instance is well formed, `closeAllDropdowns`
never throws. -/
theorem closeAllDropdowns_completes_of_open (w : World) (except : Option Ref)
    (h : openAreWellFormed w) : (closeAllDropdowns w except).completed = true := by
  unfold closeAllDropdowns
  apply forEach_completes
    (fun u => Framed w u ∧ ∀ j, (u.insts j).isOpen = true → (w.insts j).isOpen = true)
  · intro v x hx hv
    refine ⟨?_, closeUnless_framed except x hv.1, ?_⟩
    · unfold closeUnless
      split
      · rename_i hopen
        apply closeDropdown_completes
        rw [hv.1.wellFormed_eq]
        exact h x hx (hv.2 x hopen.2)
      · rfl
    · intro j hj
      exact hv.2 j (closeUnless_flag_mono except v x j hj)
  · exact ⟨Framed.refl w, fun _ hj => hj⟩

/-- An instance that is open after `closeAllDropdowns` was open before. -/
theorem closeAllDropdowns_flag_mono (w : World) (except : Option Ref) (j : Ref)
    (h : ((closeAllDropdowns w except).world.insts j).isOpen = true) :
    (w.insts j).isOpen = true := by
  have hall : ∀ k, ((closeAllDropdowns w except).world.insts k).isOpen = true →
      (w.insts k).isOpen = true := by
    unfold closeAllDropdowns
    apply forEach_preserves (fun u => ∀ k, (u.insts k).isOpen = true → (w.insts k).isOpen = true)
    · intro v x _ hv k hk
      exact hv k (closeUnless_flag_mono except v x k hk)
    · exact fun _ hk => hk
  exact hall j h

/-- Another instance that is open after `openDropdown` was open before. -/
theorem openDropdown_others_mono (v : World) (this j : Ref) (hj : j ≠ this)
    (h : ((openDropdown v this).world.insts j).isOpen = true) : (v.insts j).isOpen = true := by
  have hall : ∀ k, k ≠ this → ((openDropdown v this).world.insts k).isOpen = true →
      (v.insts k).isOpen = true := by
    unfold openDropdown
    split
    · exact fun _ _ hk => hk
    · apply andThen_preserves
        (fun u => ∀ k, k ≠ this → (u.insts k).isOpen = true → (v.insts k).isOpen = true)
      · intro k _ hk
        exact closeAllDropdowns_flag_mono v (some this) k hk
      · intro u hu k hkt
        simp only
        split
        · simpa [hkt] using hu k hkt
        · split
          · simpa [hkt] using hu k hkt
          · simpa [hkt] using hu k hkt
  exact hall j hj h

/-- With every open registered instance well formed, `openDropdown` on a
synchronised well-formed instance completes and leaves it open and
synchronised, and every open registered instance is still well formed. -/
theorem openDropdown_opens {this toggle menu element : Ref} {b : Bool} {v : World}
    (hreg : openAreWellFormed v) (h : Sync this toggle menu element b v) :
    (openDropdown v this).completed = true ∧
    Sync this toggle menu element true (openDropdown v this).world ∧
    openAreWellFormed (openDropdown v this).world := by
  have hsync := openDropdown_sync h
  have hfr := openDropdown_framed this (Framed.refl v)
  have hflag : (openDropdown v this).completed = true ∧
      ((openDropdown v this).world.insts this).isOpen = true := by
    cases b with
    | true =>
      unfold openDropdown
      simp [h.flag]
    | false =>
      have hca := closeAllDropdowns_keeps_closed h
      have hdone := (completed_iff_done _).mp
        (closeAllDropdowns_completes_of_open v (some this) hreg)
      unfold openDropdown
      rw [hdone]
      simp [h.flag, hca.menu_eq, hca.toggle_eq]
  rw [hflag.2] at hsync
  refine ⟨hflag.1, hsync, ?_⟩
  intro j hj hjo
  rw [hfr.wellFormed_eq]
  rw [hfr.instances] at hj
  by_cases hjt : j = this
  · subst hjt
    simp [wellFormed, h.toggle_eq, h.menu_eq]
  · exact hreg j hj (openDropdown_others_mono v this j hjt hjo)

theorem closeDropdown_keeps_openAreWellFormed (v : World) (this : Ref)
    (hreg : openAreWellFormed v) : openAreWellFormed (closeDropdown v this).world := by
  have hfr := closeDropdown_framed this (Framed.refl v)
  intro j hj hjo
  rw [hfr.wellFormed_eq]
  rw [hfr.instances] at hj
  rw [closeDropdown_isOpen] at hjo
  split at hjo
  · simp at hjo
  · exact hreg j hj hjo

/-- One call on a synchronised well-formed instance does what the state
machine of the specification says, and completes. -/
theorem Call.run_spec {this toggle menu element : Ref} {b : Bool} {v : World} (c : Call)
    (hreg : openAreWellFormed v) (h : Sync this toggle menu element b v) :
    (c.run v this).completed = true ∧
    Sync this toggle menu element (specStep b c) (c.run v this).world ∧
    openAreWellFormed (c.run v this).world := by
  have hopen := openDropdown_opens hreg h
  have hclose : (closeDropdown v this).completed = true ∧
      Sync this toggle menu element false (closeDropdown v this).world ∧
      openAreWellFormed (closeDropdown v this).world :=
    ⟨(closeDropdown_sync h).1, (closeDropdown_sync h).2,
      closeDropdown_keeps_openAreWellFormed v this hreg⟩
  cases c with
  | openCall => exact hopen
  | closeCall => exact hclose
  | toggleCall =>
    show (toggleDropdown v this).completed = true ∧
      Sync this toggle menu element (!b) (toggleDropdown v this).world ∧
      openAreWellFormed (toggleDropdown v this).world
    unfold toggleDropdown
    cases b with
    | true =>
      rw [if_pos h.flag]
      exact hclose
    | false =>
      rw [if_neg (by simp [h.flag])]
      exact hopen

theorem runOn_spec {this toggle menu element : Ref} (cs : List Call) (b : Bool) (v : World)
    (hreg : openAreWellFormed v) (h : Sync this toggle menu element b v) :
    Sync this toggle menu element (specRun b cs) (runOn v this cs) := by
  induction cs generalizing b v with
  | nil => exact h
  | cons c rest ih =>
    obtain ⟨_, h1, h2⟩ := c.run_spec hreg h
    exact ih (specStep b c) (c.run v this).world h2 h1

/-- In the state machine of the specification, the state is `Open` exactly
when the most recent state-changing call was an open. -/
theorem specRun_iff_lastChange (cs : List Call) (b : Bool) (seen : Option Bool)
    (h : b = true ↔ seen = some true) :
    specRun b cs = true ↔ specLastChange b seen cs = some true := by
  induction cs generalizing b seen with
  | nil => exact h
  | cons c rest ih =>
    simp only [specRun, specLastChange]
    apply ih
    by_cases hch : (specStep b c != b) = true
    · rw [if_pos hch]
      simp
    · rw [if_neg hch]
      have : specStep b c = b := by simpa using hch
      rw [this]
      exact h

theorem getAttribute_eq_str (e : Element) (k v : String) :
    e.getAttribute k = .str v ↔ e.attributes k = some v := by
  unfold Element.getAttribute attrVal
  cases e.attributes k <;> simp

/-- Synchronisation where no malformed instance is open: take a well-formed
instance in its post-construction state, in a world where every open
registered instance is well formed.  After every finite sequence of `openDropdown`, `closeDropdown`
and `toggleDropdown` calls on it, `isOpen` is the state of the specification's
state machine, which is `Open` exactly when the most recent state-changing
call was an open, and the menu has `show` iff the container has `active` iff
`aria-expanded` is `"true"` iff `isOpen`. -/
theorem state_attribute_sync (w : World) (this toggle menu : Ref) (cs : List Call)
    (hreg : openAreWellFormed w)
    (ht : (w.insts this).toggle = some toggle) (hm : (w.insts this).menu = some menu)
    (h0 : (w.insts this).isOpen = false)
    (h1 : "show" ∉ (w.elems menu).classList)
    (h2 : "active" ∉ (w.elems (w.insts this).element).classList)
    (h3 : (w.elems toggle).getAttribute "aria-expanded" = .str "false") :
    ((runOn w this cs).insts this).isOpen = specRun false cs ∧
    (((runOn w this cs).insts this).isOpen = true ↔
      specLastChange false none cs = some true) ∧
    ("show" ∈ ((runOn w this cs).elems menu).classList ↔
      ((runOn w this cs).insts this).isOpen = true) ∧
    ("active" ∈ ((runOn w this cs).elems (w.insts this).element).classList ↔
      ((runOn w this cs).insts this).isOpen = true) ∧
    (((runOn w this cs).elems toggle).getAttribute "aria-expanded" = .str "true" ↔
      ((runOn w this cs).insts this).isOpen = true) := by
  have hstart : Sync this toggle menu (w.insts this).element false w :=
    ⟨ht, hm, rfl, h0, by simpa using h1, by simpa using h2,
      by simpa using (getAttribute_eq_str _ _ _).mp h3⟩
  have hs := runOn_spec cs false w hreg hstart
  have hflag := hs.flag
  refine ⟨hflag, ?_, ?_, ?_, ?_⟩
  · rw [hflag]
    exact specRun_iff_lastChange cs false none (by simp)
  · rw [hflag]
    exact hs.showFlag
  · rw [hflag]
    exact hs.activeFlag
  · rw [getAttribute_eq_str, hs.aria, hflag]
    cases specRun false cs <;> simp

/-- An instance of `state_attribute_sync`: instance `0` of the bound page, run
through the calls open, toggle, close, toggle. -/
theorem state_attribute_sync_bound :
    ((runOn bound 0 [.openCall, .toggleCall, .closeCall, .toggleCall]).insts 0).isOpen = true ∧
    specLastChange false none [.openCall, .toggleCall, .closeCall, .toggleCall] = some true ∧
    "show" ∈ ((runOn bound 0 [.openCall, .toggleCall, .closeCall, .toggleCall]).elems 2).classList :=
  have h := state_attribute_sync bound 0 1 2 [.openCall, .toggleCall, .closeCall, .toggleCall]
    (by unfold openAreWellFormed; decide) (by decide) (by decide) (by decide) (by decide)
    (by decide) (by decide)
  have hopen : ((runOn bound 0 [.openCall, .toggleCall, .closeCall, .toggleCall]).insts 0).isOpen
      = true := h.1.trans (by decide)
  ⟨hopen, h.2.1.mp hopen, h.2.2.1.mpr hopen⟩

/-- Claim C2 (code defect, the one of C4): on the broken page, after
`openDropdown()` was called on the malformed instance `2`, instance `0` is well
formed and in its post-construction state.  The specification's state machine
takes it to `Open` on `openDropdown()`, the most recent state-changing call
being that open; the code throws inside `closeAllDropdowns`, on
`this.menu.classList` of instance `2`, and leaves instance `0` closed.  A
second `openDropdown()` then opens it. -/
theorem open_blocked_by_malformed_instance :
    jammed.instances = [0, 1, 2] ∧
    (jammed.insts 2).menu = none ∧ (jammed.insts 2).isOpen = true ∧
    (jammed.insts 0).toggle = some 1 ∧ (jammed.insts 0).menu = some 2 ∧
    (jammed.insts 0).element = 0 ∧ (jammed.insts 0).isOpen = false ∧
    "show" ∉ (jammed.elems 2).classList ∧ "active" ∉ (jammed.elems 0).classList ∧
    (jammed.elems 1).getAttribute "aria-expanded" = .str "false" ∧
    specRun false [.openCall] = true ∧
    specLastChange false none [.openCall] = some true ∧
    (openDropdown jammed 0).completed = false ∧
    ((runOn jammed 0 [.openCall]).insts 0).isOpen = false ∧
    "show" ∉ ((runOn jammed 0 [.openCall]).elems 2).classList ∧
    (toggleDropdown jammed 0).completed = false ∧
    ((runOn jammed 0 [.toggleCall]).insts 0).isOpen = false ∧
    ((runOn jammed 0 [.openCall, .openCall]).insts 0).isOpen = true := by
  decide

/-! ## Keyboard wrap (C6) -/

theorem indexOfFrom_range (xs : List Ref) (x : Ref) (k : Nat) :
    indexOfFrom xs x k = -1 ∨
      ((k : Int) ≤ indexOfFrom xs x k ∧ indexOfFrom xs x k < (k : Int) + xs.length) := by
  induction xs generalizing k with
  | nil => left; rfl
  | cons y ys ih =>
    unfold indexOfFrom
    split
    · right
      simp only [List.length_cons]
      omega
    · rcases ih (k + 1) with h | h
      · left; exact h
      · right
        simp only [List.length_cons]
        push_cast at h ⊢
        omega

/-- The index `indexOf` returns is `-1` or a position of the array. -/
theorem indexOf_range (xs : List Ref) (x : Option Ref) :
    -1 ≤ indexOf xs x ∧ indexOf xs x < (xs.length : Int) := by
  unfold indexOf
  cases x with
  | none => simp only; omega
  | some r =>
    simp only
    rcases indexOfFrom_range xs r 0 with h | h
    · rw [h]; omega
    · push_cast at h; omega

theorem arrayGet_int (xs : List Ref) (i : Int) (h0 : 0 ≤ i) (h1 : i < (xs.length : Int)) :
    ∃ item, xs.get? i.toNat = some item ∧ arrayGet xs (.int i) = some item := by
  obtain ⟨k, rfl⟩ := Int.eq_ofNat_of_zero_le h0
  have hk : k < xs.length := by exact_mod_cast h1
  refine ⟨xs.get ⟨k, hk⟩, ?_, ?_⟩
  · simp [List.get?_eq_get hk]
  · show xs.get? k = some (xs.get ⟨k, hk⟩)
    exact List.get?_eq_get hk

/-- The call `el.focus()` on a focusable element moves the focus to it. -/
theorem focus_focusable (w : World) (r : Ref) (h : (w.elems r).focusable = true) :
    (w.focus r).activeElement = some r := by
  unfold World.focus
  rw [if_pos h]

/-- The call `el.focus()` on an element that is not focusable does nothing. -/
theorem focus_not_focusable (w : World) (r : Ref) (h : (w.elems r).focusable = false) :
    w.focus r = w := by
  unfold World.focus
  rw [if_neg (by simp [h])]

/-- The index arithmetic of the two arrow keys, for every index in `-1 .. n-1`. -/
theorem arrow_index_arithmetic (n : Nat) (c : Int) (hn : 0 < n) (hlo : -1 ≤ c)
    (hhi : c < (n : Int)) :
    nextIndex c n = .int ((c + 1) % (n : Int)) ∧
    0 ≤ (c + 1) % (n : Int) ∧ (c + 1) % (n : Int) < (n : Int) ∧
    prevIndex c n = .int (if c > 0 then c - 1 else (n : Int) - 1) ∧
    0 ≤ (if c > 0 then c - 1 else (n : Int) - 1) ∧
    (if c > 0 then c - 1 else (n : Int) - 1) < (n : Int) := by
  have hnpos : (0 : Int) < (n : Int) := by exact_mod_cast hn
  have hnext : nextIndex c n = .int ((c + 1) % (n : Int)) := by
    unfold nextIndex jsRem
    rw [if_neg (by omega), Int.tmod_eq_emod (by omega) (by omega)]
  have hd0 : 0 ≤ (c + 1) % (n : Int) := Int.emod_nonneg _ (by omega)
  have hd1 : (c + 1) % (n : Int) < (n : Int) := Int.emod_lt_of_pos _ hnpos
  have hu0 : 0 ≤ (if c > 0 then c - 1 else (n : Int) - 1) := by split <;> omega
  have hu1 : (if c > 0 then c - 1 else (n : Int) - 1) < (n : Int) := by split <;> omega
  exact ⟨hnext, hd0, hd1, rfl, hu0, hu1⟩

theorem markMenuItem_tabindex (w : World) (x : Ref) :
    ((markMenuItem w x).world.elems x).attributes "tabindex" = some "-1" := by
  simp [markMenuItem]

theorem markMenuItem_keeps (w : World) (x r : Ref) :
    ((w.elems r).attributes "tabindex" = some "-1" →
      ((markMenuItem w x).world.elems r).attributes "tabindex" = some "-1") ∧
    ((markMenuItem w x).world.elems r).rendered = (w.elems r).rendered := by
  unfold markMenuItem
  simp only [world_done, setElem_elems]
  split
  · exact ⟨fun _ => by simp, rfl⟩
  · exact ⟨fun h => h, rfl⟩

/-- The loop of `setupAccessibility` gives every item `tabindex="-1"`. -/
theorem forEach_markMenuItem (xs : List Ref) (w : World) :
    (∀ x ∈ xs, ((forEach xs markMenuItem w).world.elems x).attributes "tabindex" = some "-1") ∧
    (∀ r, (w.elems r).attributes "tabindex" = some "-1" →
      ((forEach xs markMenuItem w).world.elems r).attributes "tabindex" = some "-1") ∧
    ∀ r, ((forEach xs markMenuItem w).world.elems r).rendered = (w.elems r).rendered := by
  induction xs generalizing w with
  | nil => simp [forEach]
  | cons x rest ih =>
    obtain ⟨h1, h2, h3⟩ := ih (markMenuItem w x).world
    rw [forEach_cons_completed markMenuItem x rest w rfl]
    refine ⟨?_, ?_, ?_⟩
    · intro y hy
      rcases List.mem_cons.mp hy with rfl | hy
      · exact h2 y (markMenuItem_tabindex w y)
      · exact h1 y hy
    · intro r hr
      exact h2 r ((markMenuItem_keeps w x r).1 hr)
    · intro r
      rw [h3 r, (markMenuItem_keeps w x r).2]

theorem setupEventListeners_elems (v : World) (this : Ref) :
    (setupEventListeners v this).world.elems = v.elems := by
  unfold setupEventListeners
  simp only
  apply andThen_preserves (fun u => u.elems = v.elems)
  · split_ifs
    · split <;> rfl
    · rfl
    · rfl
  · intro u hu
    split <;> split_ifs <;> simpa using hu

theorem setupAccessibility_items (v : World) (this toggle menu : Ref)
    (ht : (v.insts this).toggle = some toggle) (hm : (v.insts this).menu = some menu) :
    (∀ item ∈ (v.elems menu).anchors,
      ((setupAccessibility v this).world.elems item).attributes "tabindex" = some "-1") ∧
    ∀ r, ((setupAccessibility v this).world.elems r).rendered = (v.elems r).rendered := by
  have hanchors : (((v.setElem toggle fun e =>
      (e.setAttribute "aria-expanded" "false").setAttribute "aria-haspopup" "true").setElem
        menu fun e => e.setAttribute "role" "menu").elems menu).anchors =
      (v.elems menu).anchors := by
    simp only [setElem_elems, if_true]
    split <;> rfl
  have hrend : ∀ r, (((v.setElem toggle fun e =>
      (e.setAttribute "aria-expanded" "false").setAttribute "aria-haspopup" "true").setElem
        menu fun e => e.setAttribute "role" "menu").elems r).rendered = (v.elems r).rendered := by
    intro r
    simp only [setElem_elems]
    split <;> split <;> rfl
  obtain ⟨h1, _, h3⟩ := forEach_markMenuItem (v.elems menu).anchors
    ((v.setElem toggle fun e =>
      (e.setAttribute "aria-expanded" "false").setAttribute "aria-haspopup" "true").setElem
        menu fun e => e.setAttribute "role" "menu")
  unfold setupAccessibility
  simp only [ht, hm, hanchors]
  cases hloop : forEach (v.elems menu).anchors markMenuItem
    ((v.setElem toggle fun e =>
      (e.setAttribute "aria-expanded" "false").setAttribute "aria-haspopup" "true").setElem
        menu fun e => e.setAttribute "role" "menu") with
  | done u =>
    rw [hloop] at h1 h3
    simp only [world_done] at h1 h3
    simp only [andThen_done, world_done, addListener_elems]
    exact ⟨h1, fun r => (h3 r).trans (hrend r)⟩
  | threw u =>
    rw [hloop] at h1 h3
    simp only [world_threw] at h1 h3
    simp only [andThen_threw, world_threw]
    exact ⟨h1, fun r => (h3 r).trans (hrend r)⟩

/-- The constructor makes every item that is in the menu at construction a
focusable area as far as the widget can: the item gets `tabindex="-1"`, so it
is focusable exactly when the host document renders it. -/
theorem construct_items_focusable (w : World) (element toggle menu : Ref) (options : Obj)
    (ht : (w.elems element).toggleQuery = some toggle)
    (hm : (w.elems element).menuQuery = some menu) :
    ∀ item ∈ (w.elems menu).anchors,
      ((construct w element options).world.elems item).focusable = (w.elems item).rendered := by
  intro item hitem
  have hkey : ((construct w element options).world.elems item).attributes "tabindex" =
      some "-1" ∧
      ((construct w element options).world.elems item).rendered = (w.elems item).rendered := by
    unfold construct init
    simp only [ht, hm, Option.isNone_some, Bool.or_self, Bool.false_eq_true, if_false, if_true]
    have hel := setupEventListeners_elems
      { w with
        insts := fun k => if k = w.nextInst then
          { element := element, options := resolveOptions (w.elems element) options,
            toggle := some toggle, menu := some menu, isOpen := false,
            selectedValue := .null, selectedText := .null } else w.insts k
        nextInst := w.nextInst + 1 } w.nextInst
    have hin := setupEventListeners_insts
      { w with
        insts := fun k => if k = w.nextInst then
          { element := element, options := resolveOptions (w.elems element) options,
            toggle := some toggle, menu := some menu, isOpen := false,
            selectedValue := .null, selectedText := .null } else w.insts k
        nextInst := w.nextInst + 1 } w.nextInst
    cases hsel : setupEventListeners
      { w with
        insts := fun k => if k = w.nextInst then
          { element := element, options := resolveOptions (w.elems element) options,
            toggle := some toggle, menu := some menu, isOpen := false,
            selectedValue := .null, selectedText := .null } else w.insts k
        nextInst := w.nextInst + 1 } w.nextInst with
    | done u =>
      rw [hsel] at hel hin
      simp only [world_done] at hel hin
      simp only [andThen_done]
      obtain ⟨h1, h2⟩ := setupAccessibility_items u w.nextInst toggle menu
        (by rw [hin]; simp) (by rw [hin]; simp)
      rw [hel] at h1 h2
      exact ⟨h1 item hitem, h2 item⟩
    | threw u =>
      have hc := setupEventListeners_completes
        { w with
          insts := fun k => if k = w.nextInst then
            { element := element, options := resolveOptions (w.elems element) options,
              toggle := some toggle, menu := some menu, isOpen := false,
              selectedValue := .null, selectedText := .null } else w.insts k
          nextInst := w.nextInst + 1 } w.nextInst toggle menu (by simp) (by simp)
      rw [hsel] at hc
      simp at hc
  have hparse : parsesAsInteger "-1" = true := by decide
  unfold Element.focusable Element.hasTabindex
  rw [hkey.1, hkey.2]
  simp [hparse]

/-- Claim C6 as stated fails: a third anchor without `href` and without
`tabindex` was appended to the menu after construction.  With the focus on the
item at index `1`, `ArrowDown` targets index `(1 + 1) mod 3 = 2`, the call of
`focus()` on that anchor does nothing, and the focus stays on the item at
index `1`. -/
theorem arrow_down_on_unfocusable_item :
    (late.insts 0).menu = some 2 ∧ (late.elems 2).anchors = [3, 4, 13] ∧
    (late.elems 13).tagName = "A" ∧ (late.elems 13).focusable = false ∧
    indexOf (late.elems 2).anchors late.activeElement = 1 ∧
    nextIndex 1 3 = .int 2 ∧ (late.elems 2).anchors.get? 2 = some 13 ∧
    (menuKeydown late 0 "ArrowDown").completed = true ∧
    (menuKeydown late 0 "ArrowDown").world.activeElement = some 4 ∧
    (menuKeydown late 0 "ArrowDown").world.activeElement ≠ some 13 := by
  decide

/-- Claim C6, amended: for a list of `n > 0` selectable items and a current
index `c` in `-1 .. n-1`, `ArrowDown` targets `(c + 1) mod n` and `ArrowUp`
targets `c - 1` when `c > 0` and `n - 1` otherwise; both targets lie in
`0 .. n-1`.  The menu `keydown` listener completes after calling `focus()` on
the item at the target: the focus is on that item afterwards when the item is
focusable, and the world is unchanged when it is not. -/
theorem menu_arrow_keys_wrap (n : Nat) (c : Int) (hn : 0 < n) (hlo : -1 ≤ c)
    (hhi : c < (n : Int)) :
    nextIndex c n = .int ((c + 1) % (n : Int)) ∧
    0 ≤ (c + 1) % (n : Int) ∧ (c + 1) % (n : Int) < (n : Int) ∧
    prevIndex c n = .int (if c > 0 then c - 1 else (n : Int) - 1) ∧
    0 ≤ (if c > 0 then c - 1 else (n : Int) - 1) ∧
    (if c > 0 then c - 1 else (n : Int) - 1) < (n : Int) ∧
    ∀ (w : World) (this menu : Ref), (w.insts this).menu = some menu →
      (w.elems menu).anchors.length = n →
      indexOf (w.elems menu).anchors w.activeElement = c →
      (∃ item, (w.elems menu).anchors.get? ((c + 1) % (n : Int)).toNat = some item ∧
        (menuKeydown w this "ArrowDown").completed = true ∧
        ((w.elems item).focusable = true →
          (menuKeydown w this "ArrowDown").world.activeElement = some item) ∧
        ((w.elems item).focusable = false → (menuKeydown w this "ArrowDown").world = w)) ∧
      (∃ item, (w.elems menu).anchors.get? (if c > 0 then c - 1 else (n : Int) - 1).toNat =
          some item ∧
        (menuKeydown w this "ArrowUp").completed = true ∧
        ((w.elems item).focusable = true →
          (menuKeydown w this "ArrowUp").world.activeElement = some item) ∧
        ((w.elems item).focusable = false → (menuKeydown w this "ArrowUp").world = w)) := by
  obtain ⟨hnext, hd0, hd1, hprev, hu0, hu1⟩ := arrow_index_arithmetic n c hn hlo hhi
  refine ⟨hnext, hd0, hd1, hprev, hu0, hu1, ?_⟩
  intro w this menu hm hlen hc
  constructor
  · obtain ⟨item, hget, harr⟩ :=
      arrayGet_int (w.elems menu).anchors ((c + 1) % (n : Int)) hd0 (by rw [hlen]; exact hd1)
    have hrun : menuKeydown w this "ArrowDown" = .done (w.focus item) := by
      unfold menuKeydown
      simp only [hm, hc, hlen, if_true, hnext, focusItem, harr]
    refine ⟨item, hget, ?_, ?_, ?_⟩
    · rw [hrun]; rfl
    · intro hf
      rw [hrun]
      exact focus_focusable w item hf
    · intro hf
      rw [hrun]
      exact focus_not_focusable w item hf
  · obtain ⟨item, hget, harr⟩ :=
      arrayGet_int (w.elems menu).anchors (if c > 0 then c - 1 else (n : Int) - 1) hu0
        (by rw [hlen]; exact hu1)
    have hkey : ¬ ("ArrowUp" = "ArrowDown") := by decide
    have hrun : menuKeydown w this "ArrowUp" = .done (w.focus item) := by
      unfold menuKeydown
      simp only [hm, hc, hlen, if_neg hkey, if_true, prevIndex, focusItem, harr]
    refine ⟨item, hget, ?_, ?_, ?_⟩
    · rw [hrun]; rfl
    · intro hf
      rw [hrun]
      exact focus_focusable w item hf
    · intro hf
      rw [hrun]
      exact focus_not_focusable w item hf

/-- Witness for C6: instance `0` of the bound page, two focusable items, the
focus on the last one (`c = 1`): `ArrowDown` wraps to the first item. -/
theorem menu_arrow_keys_wrap_witness :
    (0 < 2 ∧ (-1 : Int) ≤ 1 ∧ (1 : Int) < ((2 : Nat) : Int)) ∧
    ((focused.insts 0).menu = some 2 ∧ (focused.elems 2).anchors.length = 2 ∧
      indexOf (focused.elems 2).anchors focused.activeElement = 1) ∧
    ((focused.elems 2).anchors.get? (((1 : Int) + 1) % ((2 : Nat) : Int)).toNat = some 3 ∧
      (focused.elems 3).focusable = true) ∧
    (∃ item, (focused.elems 2).anchors.get? (((1 : Int) + 1) % ((2 : Nat) : Int)).toNat =
        some item ∧
      (menuKeydown focused 0 "ArrowDown").completed = true ∧
      ((focused.elems item).focusable = true →
        (menuKeydown focused 0 "ArrowDown").world.activeElement = some item) ∧
      ((focused.elems item).focusable = false →
        (menuKeydown focused 0 "ArrowDown").world = focused)) ∧
    (∃ item, (focused.elems 2).anchors.get?
        (if (1 : Int) > 0 then (1 : Int) - 1 else ((2 : Nat) : Int) - 1).toNat = some item ∧
      (menuKeydown focused 0 "ArrowUp").completed = true ∧
      ((focused.elems item).focusable = true →
        (menuKeydown focused 0 "ArrowUp").world.activeElement = some item) ∧
      ((focused.elems item).focusable = false →
        (menuKeydown focused 0 "ArrowUp").world = focused)) :=
  ⟨by decide, by decide, by decide,
    (menu_arrow_keys_wrap 2 1 (by decide) (by decide) (by decide)).2.2.2.2.2.2 focused 0 2
      (by decide) (by decide) (by decide)⟩

/-! ## Selection (C3) -/

/-- The only thing `closeDropdown` changes in the heap of instances is the flag
of the instance it runs on. -/
theorem closeDropdown_insts (w : World) (this j : Ref) :
    (closeDropdown w this).world.insts j =
      if j = this then { w.insts this with isOpen := false } else w.insts j := by
  unfold closeDropdown
  by_cases hj : j = this
  · subst hj
    simp only [if_true]
    split
    · rename_i hc
      simp only [Bool.not_eq_true'] at hc
      simp only [world_done]
      cases hi : w.insts j
      rw [hi] at hc
      simp only at hc
      simp [hc]
    · split
      · simp
      · split <;> simp
  · simp only [if_neg hj]
    split
    · rfl
    · split
      · simp [hj]
      · split <;> simp [hj]

theorem dropWhile_split (p : Char → Bool) (cs : List Char) :
    ∃ pre, cs = pre ++ cs.dropWhile p ∧ (∀ c ∈ pre, p c = true) ∧
      ∀ c, (cs.dropWhile p).head? = some c → p c = false := by
  induction cs with
  | nil => exact ⟨[], rfl, by simp, by simp⟩
  | cons x xs ih =>
    obtain ⟨pre, h1, h2, h3⟩ := ih
    by_cases hx : p x = true
    · refine ⟨x :: pre, ?_, ?_, ?_⟩
      · simp only [List.dropWhile_cons, hx, if_true, List.cons_append]
        rw [← h1]
      · intro c hc
        rcases List.mem_cons.mp hc with rfl | hc
        · exact hx
        · exact h2 c hc
      · simpa only [List.dropWhile_cons, hx, if_true] using h3
    · refine ⟨[], ?_, by simp, ?_⟩
      · simp [List.dropWhile_cons, hx]
      · intro c hc
        simp only [List.dropWhile_cons, hx] at hc
        simp only [Bool.false_eq_true, if_false, List.head?_cons, Option.some.injEq] at hc
        rw [← hc]
        simpa using hx

/-- What `trim` returns: the text is the result between a run of white space
on each side, and the result neither starts nor ends with white space. -/
theorem jsTrimChars_spec (cs : List Char) :
    ∃ pre post, cs = pre ++ jsTrimChars cs ++ post ∧
      (∀ c ∈ pre, isJsWhiteSpace c = true) ∧ (∀ c ∈ post, isJsWhiteSpace c = true) ∧
      (∀ c, (jsTrimChars cs).head? = some c → isJsWhiteSpace c = false) ∧
      (∀ c, (jsTrimChars cs).getLast? = some c → isJsWhiteSpace c = false) := by
  obtain ⟨pre, h1, h2, h3⟩ := dropWhile_split isJsWhiteSpace cs
  obtain ⟨post, k1, k2, k3⟩ :=
    dropWhile_split isJsWhiteSpace (cs.dropWhile isJsWhiteSpace).reverse
  have hmid : cs.dropWhile isJsWhiteSpace = jsTrimChars cs ++ post.reverse := by
    have := congrArg List.reverse k1
    simpa [jsTrimChars] using this
  refine ⟨pre, post.reverse, ?_, h2, ?_, ?_, ?_⟩
  · rw [List.append_assoc, ← hmid]
    exact h1
  · intro c hc
    exact k2 c (List.mem_reverse.mp hc)
  · intro c hc
    cases hj : jsTrimChars cs with
    | nil => rw [hj] at hc; simp at hc
    | cons y ys =>
      rw [hj] at hc hmid
      apply h3
      rw [hmid]
      simpa using hc
  · intro c hc
    apply k3
    unfold jsTrimChars at hc
    simpa [List.getLast?_reverse] using hc

/-- The value `getAttribute('data-value') || href` stores. -/
theorem selected_value_eq (e : Element) :
    (e.getAttribute "data-value").or (.str e.href) =
      match e.attributes "data-value" with
      | some d => if d = "" then .str e.href else .str d
      | none => .str e.href := by
  unfold Element.getAttribute attrVal JSVal.or JSVal.truthy
  cases e.attributes "data-value" with
  | none => simp
  | some d => by_cases hd : d = "" <;> simp [hd]

theorem menuClick_spec (w : World) (this item : Ref) (hwf : wellFormed w this = true)
    (hA : (w.elems item).tagName = "A") :
    (menuClick w this item).completed = true ∧
    (menuClick w this item).world.insts this =
      { w.insts this with
        isOpen := false
        selectedValue := ((w.elems item).getAttribute "data-value").or (.str (w.elems item).href)
        selectedText := .str (jsTrim (w.elems item).textContent) } := by
  unfold wellFormed at hwf
  simp only [Bool.and_eq_true, Option.isSome_iff_exists] at hwf
  obtain ⟨⟨toggle, ht⟩, ⟨menu, hm⟩⟩ := hwf
  unfold menuClick
  simp only [hA, if_true, setInst_insts, ht]
  split_ifs
  · simp only [andThen_done, setElem_insts, setInst_insts, if_true]
    constructor
    · apply closeDropdown_completes
      simp [wellFormed, ht, hm]
    · rw [closeDropdown_insts]
      simp [ht]
  · simp only [andThen_done, setInst_insts, if_true]
    constructor
    · apply closeDropdown_completes
      simp [wellFormed, ht, hm]
    · rw [closeDropdown_insts]
      simp [ht]

/-- Claim C3 as stated fails: item `4` of the page carries the attribute
`data-value=""`, and after a click on it `getSelectedValue()` is the link
target of the item, not the attribute. -/
theorem selection_empty_data_value :
    wellFormed bound 0 = true ∧ (bound.elems 4).tagName = "A" ∧
    (bound.elems 4).attributes "data-value" = some "" ∧
    (bound.elems 4).href = "http://h/#x" ∧
    getSelectedValue (menuClick bound 0 4).world 0 = .str "http://h/#x" ∧
    getSelectedValue (menuClick bound 0 4).world 0 ≠ .str "" := by
  decide

/-- Claim C3, amended: for a well-formed instance, open or closed, and an item
whose `tagName` is `A`, the menu `click` listener completes; afterwards
`getSelectedValue()` is the `data-value` attribute of the item when that
attribute is present and not empty, and the link target `href` otherwise;
`getSelectedText()` is the text content with the white space at both ends
removed; and the instance is closed.  Right after construction both accessors
return `null`. -/
theorem selection_after_click (w : World) (this item : Ref)
    (hwf : wellFormed w this = true) (hA : (w.elems item).tagName = "A") :
    (menuClick w this item).completed = true ∧
    getSelectedValue (menuClick w this item).world this =
      (match (w.elems item).attributes "data-value" with
        | some d => if d = "" then .str (w.elems item).href else .str d
        | none => .str (w.elems item).href) ∧
    getSelectedText (menuClick w this item).world this =
      .str (jsTrim (w.elems item).textContent) ∧
    (∃ pre post, (w.elems item).textContent.data =
        pre ++ (jsTrim (w.elems item).textContent).data ++ post ∧
      (∀ c ∈ pre, isJsWhiteSpace c = true) ∧ (∀ c ∈ post, isJsWhiteSpace c = true) ∧
      (∀ c, (jsTrim (w.elems item).textContent).data.head? = some c →
        isJsWhiteSpace c = false) ∧
      (∀ c, (jsTrim (w.elems item).textContent).data.getLast? = some c →
        isJsWhiteSpace c = false)) ∧
    ((menuClick w this item).world.insts this).isOpen = false ∧
    (∀ (u : World) (element : Ref) (options : Obj),
      getSelectedValue (construct u element options).world u.nextInst = .null ∧
      getSelectedText (construct u element options).world u.nextInst = .null) := by
  obtain ⟨hc, hi⟩ := menuClick_spec w this item hwf hA
  refine ⟨hc, ?_, ?_, jsTrimChars_spec _, ?_, ?_⟩
  · unfold getSelectedValue
    rw [hi, ← selected_value_eq]
  · unfold getSelectedText
    rw [hi]
  · rw [hi]
  · intro u element options
    unfold getSelectedValue getSelectedText
    rw [construct_new_instance]
    exact ⟨rfl, rfl⟩

/-- Witness for C3: a click on item `3` (`data-value="b"`, text `" Beta "`) of
the bound page, handled by instance `0`. -/
theorem selection_after_click_witness :
    (wellFormed bound 0 = true ∧ (bound.elems 3).tagName = "A") ∧
    ((menuClick bound 0 3).completed = true ∧
    getSelectedValue (menuClick bound 0 3).world 0 =
      (match (bound.elems 3).attributes "data-value" with
        | some d => if d = "" then .str (bound.elems 3).href else .str d
        | none => .str (bound.elems 3).href) ∧
    getSelectedText (menuClick bound 0 3).world 0 =
      .str (jsTrim (bound.elems 3).textContent) ∧
    (∃ pre post, (bound.elems 3).textContent.data =
        pre ++ (jsTrim (bound.elems 3).textContent).data ++ post ∧
      (∀ c ∈ pre, isJsWhiteSpace c = true) ∧ (∀ c ∈ post, isJsWhiteSpace c = true) ∧
      (∀ c, (jsTrim (bound.elems 3).textContent).data.head? = some c →
        isJsWhiteSpace c = false) ∧
      (∀ c, (jsTrim (bound.elems 3).textContent).data.getLast? = some c →
        isJsWhiteSpace c = false)) ∧
    ((menuClick bound 0 3).world.insts 0).isOpen = false ∧
    (∀ (u : World) (element : Ref) (options : Obj),
      getSelectedValue (construct u element options).world u.nextInst = .null ∧
      getSelectedText (construct u element options).world u.nextInst = .null)) :=
  ⟨by decide, selection_after_click bound 0 3 (by decide) (by decide)⟩

/-! ## Discovery (C7) -/

theorem initElement_marked (w : World) (x : Ref) (h : marker w x ≠ none) :
    initElement w x = .done w := by
  unfold initElement
  unfold marker at h
  rw [if_neg]
  simpa [Option.isNone_iff_eq_none] using h

theorem initElement_unmarked (w : World) (x : Ref) (h : marker w x = none) :
    (initElement w x).completed = true ∧ Bound w x (initElement w x).world := by
  have hb := construct_built w x Obj.empty
  have hc := (completed_iff_done _).mp (construct_completes w x Obj.empty)
  have hn := construct_new_instance w x Obj.empty
  unfold marker at h
  unfold initElement
  rw [if_pos (by simp [h]), hc]
  simp only [andThen_done, completed_done, world_done, true_and]
  refine ⟨hb.nextInst, ?_, hb.dropdownElements, ?_, ?_, ?_⟩
  · simp [hb.instances]
  · intro r
    unfold marker
    simp only [setElem_elems]
    split
    · rfl
    · exact hb.marker r
  · intro k hk
    simp only [setElem_insts]
    exact hb.insts k hk
  · simp only [setElem_insts]
    rw [hn]

theorem initElement_completes (w : World) (x : Ref) : (initElement w x).completed = true := by
  by_cases h : marker w x = none
  · exact (initElement_unmarked w x h).1
  · rw [initElement_marked w x h]; rfl

/-- One run of the loop body never removes or changes a marker that is set,
and leaves the element bound. -/
theorem initElement_marker_mono (w : World) (x r : Ref) (j : Ref) (h : marker w r = some j) :
    marker (initElement w x).world r = some j := by
  by_cases hx : marker w x = none
  · rw [(initElement_unmarked w x hx).2.marker r]
    split
    · rename_i hrx
      rw [hrx, hx] at h
      simp at h
    · exact h
  · rw [initElement_marked w x hx]
    exact h

theorem initElement_binds (w : World) (x : Ref) : marker (initElement w x).world x ≠ none := by
  by_cases hx : marker w x = none
  · rw [(initElement_unmarked w x hx).2.marker x]
    simp
  · rw [initElement_marked w x hx]
    exact hx

theorem initElement_dropdownElements (w : World) (x : Ref) :
    (initElement w x).world.dropdownElements = w.dropdownElements := by
  by_cases hx : marker w x = none
  · exact (initElement_unmarked w x hx).2.dropdownElements
  · rw [initElement_marked w x hx]; rfl

/-- The discovery loop completes, and leaves every element it visited bound. -/
theorem forEach_initElement (xs : List Ref) (w : World) :
    (forEach xs initElement w).completed = true ∧
    (forEach xs initElement w).world.dropdownElements = w.dropdownElements ∧
    (∀ r j, marker w r = some j → marker (forEach xs initElement w).world r = some j) ∧
    ∀ x ∈ xs, marker (forEach xs initElement w).world x ≠ none := by
  induction xs generalizing w with
  | nil => simp [forEach]
  | cons x rest ih =>
    have hc := (completed_iff_done _).mp (initElement_completes w x)
    obtain ⟨h1, h2, h3, h4⟩ := ih (initElement w x).world
    unfold forEach
    rw [hc]
    simp only
    refine ⟨h1, h2.trans (initElement_dropdownElements w x), ?_, ?_⟩
    · intro r j hr
      exact h3 r j (initElement_marker_mono w x r j hr)
    · intro y hy
      rcases List.mem_cons.mp hy with rfl | hy
      · obtain ⟨j, hj⟩ := Option.ne_none_iff_exists'.mp (initElement_binds w y)
        rw [h3 y j hj]
        simp
      · exact h4 y hy

/-- A second pass over elements that are all bound changes nothing. -/
theorem forEach_initElement_marked (xs : List Ref) (w : World)
    (h : ∀ x ∈ xs, marker w x ≠ none) : forEach xs initElement w = .done w := by
  induction xs with
  | nil => rfl
  | cons x rest ih =>
    unfold forEach
    rw [initElement_marked w x (h x (List.mem_cons_self _ _))]
    exact ih (fun y hy => h y (List.mem_cons_of_mem _ hy))

/-- The method `initAll` never throws. -/
theorem initAll_completes (w : World) : (initAll w).completed = true :=
  (forEach_initElement w.dropdownElements w).1

/-- Calling `initAll` again right after `initAll` leaves the whole world as it is. -/
theorem initAll_idempotent (w : World) :
    initAll (initAll w).world = .done (initAll w).world := by
  obtain ⟨_, h2, _, h4⟩ := forEach_initElement w.dropdownElements w
  unfold initAll
  rw [h2]
  exact forEach_initElement_marked _ _ h4

theorem initElement_census (L : List Ref) (v : World) (x : Ref) (hx : x ∈ L)
    (h : Census L v) : Census L (initElement v x).world := by
  by_cases hm : marker v x = none
  · obtain ⟨_, hb⟩ := initElement_unmarked v x hm
    have hold : ∀ j ∈ v.instances, (initElement v x).world.insts j = v.insts j :=
      fun j hj => hb.insts j (h.alloc j hj)
    refine ⟨?_, ?_, ?_, ?_, ?_⟩
    · rw [hb.instances]
      apply List.Nodup.append h.nodup (List.nodup_singleton _)
      intro j hj hj2
      have := h.alloc j hj
      simp only [List.mem_singleton] at hj2
      rw [hj2] at this
      exact Nat.lt_irrefl _ this
    · intro j hj
      rw [hb.instances] at hj
      rw [hb.nextInst]
      rcases List.mem_append.mp hj with hj | hj
      · exact Nat.lt_succ_of_lt (h.alloc j hj)
      · simp only [List.mem_singleton] at hj
        rw [hj]
        exact Nat.lt_succ_self _
    · intro j hj
      rw [hb.instances] at hj
      rcases List.mem_append.mp hj with hj | hj
      · rw [hold j hj, hb.marker]
        split
        · rename_i he
          have := h.owns j hj
          rw [he, hm] at this
          simp at this
        · exact h.owns j hj
      · simp only [List.mem_singleton] at hj
        subst hj
        rw [hb.element, hb.marker]
        simp
    · intro j hj
      rw [hb.instances] at hj
      rcases List.mem_append.mp hj with hj | hj
      · rw [hold j hj]
        exact h.within j hj
      · simp only [List.mem_singleton] at hj
        subst hj
        rw [hb.element]
        exact hx
    · intro r hr j hj
      rw [hb.marker] at hj
      rw [hb.instances]
      split at hj
      · rename_i he
        simp only [Option.some.injEq] at hj
        subst hj
        subst he
        exact ⟨by simp, hb.element⟩
      · obtain ⟨h1, h2⟩ := h.back r hr j hj
        exact ⟨List.mem_append_left _ h1, by rw [hold j h1]; exact h2⟩
  · rw [initElement_marked v x hm]
    exact h

theorem initAll_census (w : World) (h : Census w.dropdownElements w) :
    Census w.dropdownElements (initAll w).world := by
  unfold initAll
  apply forEach_preserves (Census w.dropdownElements)
  · intro v x hx hv
    exact initElement_census _ v x hx hv
  · exact h

/-- Claim C7: `initAll()` completes, and calling it a second time right after
leaves the world, and so the registry and every container marker, exactly as
the first call left them.  Starting from an empty registry with no qualifying
container bound, the registry then lists no instance twice, every registered
instance belongs to a qualifying container, and every qualifying container is
marked with a registered instance built on it, the only registered instance
on that container. -/
theorem discovery_idempotent (w : World) :
    (initAll w).completed = true ∧
    initAll (initAll w).world = .done (initAll w).world ∧
    (initAll (initAll w).world).world.instances = (initAll w).world.instances ∧
    (∀ r, marker (initAll (initAll w).world).world r = marker (initAll w).world r) ∧
    (w.instances = [] → (∀ e ∈ w.dropdownElements, marker w e = none) →
      (initAll w).world.instances.Nodup ∧
      (∀ j ∈ (initAll w).world.instances,
        ((initAll w).world.insts j).element ∈ w.dropdownElements) ∧
      ∀ e ∈ w.dropdownElements, ∃ j ∈ (initAll w).world.instances,
        marker (initAll w).world e = some j ∧ ((initAll w).world.insts j).element = e ∧
        ∀ k ∈ (initAll w).world.instances, ((initAll w).world.insts k).element = e → k = j) := by
  have hid := initAll_idempotent w
  refine ⟨initAll_completes w, hid, by rw [hid]; rfl, by intro r; rw [hid]; rfl, ?_⟩
  intro hempty hfree
  have hstart : Census w.dropdownElements w := by
    refine ⟨by simp [hempty], by simp [hempty], by simp [hempty], by simp [hempty], ?_⟩
    intro r hr j hj
    rw [hfree r hr] at hj
    simp at hj
  have hc := initAll_census w hstart
  refine ⟨hc.nodup, hc.within, ?_⟩
  intro e he
  have hbound := (forEach_initElement w.dropdownElements w).2.2.2 e he
  obtain ⟨j, hj⟩ := Option.ne_none_iff_exists'.mp hbound
  have hj2 : marker (initAll w).world e = some j := hj
  obtain ⟨h1, h2⟩ := hc.back e he j hj2
  refine ⟨j, h1, hj2, h2, ?_⟩
  intro k hk hke
  have := hc.owns k hk
  rw [hke, hj2] at this
  simpa using this.symm

/-- Witness for C7: the page has an empty registry and no bound container. -/
theorem discovery_idempotent_witness :
    (page.instances = [] ∧ ∀ e ∈ page.dropdownElements, marker page e = none) ∧
    (initAll page).world.instances.Nodup ∧
    (∀ j ∈ (initAll page).world.instances,
      ((initAll page).world.insts j).element ∈ page.dropdownElements) ∧
    ∀ e ∈ page.dropdownElements, ∃ j ∈ (initAll page).world.instances,
      marker (initAll page).world e = some j ∧ ((initAll page).world.insts j).element = e ∧
      ∀ k ∈ (initAll page).world.instances, ((initAll page).world.insts k).element = e → k = j :=
  ⟨by decide, (discovery_idempotent page).2.2.2.2 (by decide) (by decide)⟩

/-! ## Teardown (C8) -/

/-- An instance that is registered on its container stays so through the
later runs of the loop body of `initAll`. -/
theorem initElement_keeps_binding (e n : Ref) (v : World) (x : Ref)
    (h : marker v e = some n ∧ n ∈ v.instances ∧ (v.insts n).element = e ∧ n < v.nextInst) :
    marker (initElement v x).world e = some n ∧ n ∈ (initElement v x).world.instances ∧
      ((initElement v x).world.insts n).element = e ∧ n < (initElement v x).world.nextInst := by
  obtain ⟨h1, h2, h3, h4⟩ := h
  by_cases hm : marker v x = none
  · obtain ⟨_, hb⟩ := initElement_unmarked v x hm
    refine ⟨initElement_marker_mono v x e n h1, ?_, ?_, ?_⟩
    · rw [hb.instances]
      exact List.mem_append_left _ h2
    · rw [hb.insts n h4]
      exact h3
    · rw [hb.nextInst]
      exact Nat.lt_succ_of_lt h4
  · rw [initElement_marked v x hm]
    exact ⟨h1, h2, h3, h4⟩

theorem initElement_nextInst_le (w : World) (x : Ref) :
    w.nextInst ≤ (initElement w x).world.nextInst := by
  by_cases hm : marker w x = none
  · rw [(initElement_unmarked w x hm).2.nextInst]
    exact Nat.le_succ _
  · rw [initElement_marked w x hm]
    exact Nat.le_refl _

/-- The discovery loop binds a new object to every unbound element it visits. -/
theorem forEach_initElement_binds (xs : List Ref) (w : World) (e : Ref) (he : e ∈ xs)
    (hm : marker w e = none) :
    ∃ j, w.nextInst ≤ j ∧ marker (forEach xs initElement w).world e = some j ∧
      j ∈ (forEach xs initElement w).world.instances ∧
      ((forEach xs initElement w).world.insts j).element = e ∧
      j < (forEach xs initElement w).world.nextInst := by
  induction xs generalizing w with
  | nil => simp at he
  | cons x rest ih =>
    rw [forEach_cons_completed initElement x rest w (initElement_completes w x)]
    by_cases hxe : x = e
    · subst hxe
      obtain ⟨_, hb⟩ := initElement_unmarked w x hm
      refine ⟨w.nextInst, Nat.le_refl _, ?_⟩
      apply forEach_preserves
        (fun v => marker v x = some w.nextInst ∧ w.nextInst ∈ v.instances ∧
          (v.insts w.nextInst).element = x ∧ w.nextInst < v.nextInst)
      · intro v y _ hv
        exact initElement_keeps_binding x w.nextInst v y hv
      · refine ⟨?_, ?_, hb.element, ?_⟩
        · rw [hb.marker]; simp
        · rw [hb.instances]; simp
        · rw [hb.nextInst]; exact Nat.lt_succ_self _
    · have herest : e ∈ rest := by
        rcases List.mem_cons.mp he with h | h
        · exact absurd h.symm hxe
        · exact h
      have hm1 : marker (initElement w x).world e = none := by
        by_cases hmx : marker w x = none
        · rw [(initElement_unmarked w x hmx).2.marker e, if_neg (fun h => hxe h.symm)]
          exact hm
        · rw [initElement_marked w x hmx]
          exact hm
      obtain ⟨j, hj, hrest⟩ := ih (initElement w x).world herest hm1
      exact ⟨j, Nat.le_trans (initElement_nextInst_le w x) hj, hrest⟩

theorem indexOfFrom_splice (xs : List Ref) (x : Ref) (k : Nat) :
    (if indexOfFrom xs x k > -1 then xs.eraseIdx (indexOfFrom xs x k - (k : Int)).toNat
      else xs) = xs.erase x := by
  induction xs generalizing k with
  | nil => simp [indexOfFrom]
  | cons y ys ih =>
    unfold indexOfFrom
    by_cases hy : y = x
    · subst hy
      have hk : ((k : Int) > -1) := by omega
      simp [hk]
    · rw [if_neg hy, List.erase_cons_tail (by simpa using hy)]
      rw [← ih (k + 1)]
      rcases indexOfFrom_range ys x (k + 1) with h | h
      · rw [h]
        simp
      · have hpos : indexOfFrom ys x (k + 1) > -1 := by omega
        rw [if_pos hpos, if_pos hpos]
        have hsplit : (indexOfFrom ys x (k + 1) - (k : Int)).toNat =
            (indexOfFrom ys x (k + 1) - ((k + 1 : Nat) : Int)).toNat + 1 := by
          push_cast
          omega
        rw [hsplit, List.eraseIdx_cons_succ]

/-- The `indexOf` and `splice` pair of `destroy` removes the first occurrence. -/
theorem splice_eq_erase (xs : List Ref) (x : Ref) :
    (if indexOf xs (some x) > -1 then xs.eraseIdx (indexOf xs (some x)).toNat else xs) =
      xs.erase x := by
  have h := indexOfFrom_splice xs x 0
  simpa [indexOf] using h

/-- What `destroy` does with a well-formed instance: it completes, closes the
instance, removes its first occurrence from the registry and clears the marker
of its container; nothing else that the registry reads is touched. -/
theorem destroy_spec (w : World) (this : Ref) (hwf : wellFormed w this = true) :
    (destroy w this).completed = true ∧
    (destroy w this).world.instances = w.instances.erase this ∧
    (destroy w this).world.insts = (closeDropdown w this).world.insts ∧
    (destroy w this).world.nextInst = w.nextInst ∧
    (destroy w this).world.dropdownElements = w.dropdownElements ∧
    ∀ r, marker (destroy w this).world r =
      if r = (w.insts this).element then none else marker w r := by
  have hc := (completed_iff_done _).mp (closeDropdown_completes w this hwf)
  have hf := closeDropdown_framed this (Framed.refl w)
  have hsplice := splice_eq_erase (closeDropdown w this).world.instances this
  unfold destroy
  rw [hc]
  simp only [andThen_done, completed_done, world_done, true_and]
  by_cases hidx : indexOf (closeDropdown w this).world.instances (some this) > -1
  · rw [if_pos hidx] at hsplice
    simp only [if_pos hidx, setElem_instances, setElem_insts, setElem_nextInst,
      setElem_dropdownElements]
    refine ⟨by rw [hsplice, hf.instances], trivial, hf.nextInst, hf.dropdownElements, ?_⟩
    intro r
    unfold marker
    simp only [setElem_elems, hf.element]
    split
    · rfl
    · exact hf.marker r
  · rw [if_neg hidx] at hsplice
    simp only [if_neg hidx, setElem_instances, setElem_insts, setElem_nextInst,
      setElem_dropdownElements]
    refine ⟨by rw [hsplice, hf.instances], trivial, hf.nextInst, hf.dropdownElements, ?_⟩
    intro r
    unfold marker
    simp only [setElem_elems, hf.element]
    split
    · rfl
    · exact hf.marker r

theorem consistent_of_empty (w : World) (h : w.instances = []) : consistent w := by
  unfold consistent
  simp [h]

theorem initElement_consistent (w : World) (x : Ref) (h : consistent w) :
    consistent (initElement w x).world := by
  by_cases hm : marker w x = none
  · obtain ⟨_, hb⟩ := initElement_unmarked w x hm
    unfold consistent
    rw [hb.instances, hb.nextInst]
    constructor
    · apply List.Nodup.append h.1 (List.nodup_singleton _)
      intro j hj hj2
      have := h.2 j hj
      simp only [List.mem_singleton] at hj2
      rw [hj2] at this
      exact Nat.lt_irrefl _ this
    · intro j hj
      rcases List.mem_append.mp hj with hj | hj
      · exact Nat.lt_succ_of_lt (h.2 j hj)
      · simp only [List.mem_singleton] at hj
        rw [hj]
        exact Nat.lt_succ_self _
  · rw [initElement_marked w x hm]
    exact h

/-- The method `initAll` keeps the registry consistent. -/
theorem initAll_consistent (w : World) (h : consistent w) : consistent (initAll w).world := by
  unfold initAll
  apply forEach_preserves consistent
  · intro v x _ hv
    exact initElement_consistent v x hv
  · exact h

/-- The state machine keeps the registry consistent. -/
theorem Call.run_consistent (c : Call) (w : World) (this : Ref) (h : consistent w) :
    consistent (c.run w this).world := by
  have hf := c.run_framed this (Framed.refl w)
  unfold consistent
  rw [hf.instances, hf.nextInst]
  exact h

/-- The method `destroy` keeps the registry consistent. -/
theorem destroy_consistent (w : World) (this : Ref) (hwf : wellFormed w this = true)
    (h : consistent w) : consistent (destroy w this).world := by
  obtain ⟨_, h1, _, h3, _, _⟩ := destroy_spec w this hwf
  unfold consistent
  rw [h1, h3]
  exact ⟨h.1.erase this, fun j hj => h.2 j (List.mem_of_mem_erase hj)⟩

/-- Claim C8: in a consistent registry, `destroy()` on a registered well-formed
instance `i`, open or closed, completes; afterwards `i` is closed, `i` is not in
the registry, its container carries no marker, the registry is the old one
without `i` in the same order, and no other instance changed its `isOpen`.
If the container is a qualifying one, a later `initAll()` completes and marks
it with a newly allocated, registered instance built on that container. -/
theorem teardown (w : World) (i : Ref) (hcons : consistent w) (hi : i ∈ w.instances)
    (hwf : wellFormed w i = true) :
    (destroy w i).completed = true ∧
    ((destroy w i).world.insts i).isOpen = false ∧
    i ∉ (destroy w i).world.instances ∧
    marker (destroy w i).world (w.insts i).element = none ∧
    (destroy w i).world.instances = w.instances.filter (fun j => j ≠ i) ∧
    (∀ j, j ≠ i → ((destroy w i).world.insts j).isOpen = (w.insts j).isOpen) ∧
    ((w.insts i).element ∈ w.dropdownElements →
      (initAll (destroy w i).world).completed = true ∧
      ∃ j, j ≠ i ∧ j ∉ w.instances ∧
        marker (initAll (destroy w i).world).world (w.insts i).element = some j ∧
        j ∈ (initAll (destroy w i).world).world.instances ∧
        ((initAll (destroy w i).world).world.insts j).element = (w.insts i).element) := by
  obtain ⟨hc, hreg, hinsts, hnext, hdrop, hmark⟩ := destroy_spec w i hwf
  refine ⟨hc, ?_, ?_, ?_, ?_, ?_, ?_⟩
  · rw [hinsts, closeDropdown_isOpen]
    simp
  · rw [hreg]
    exact hcons.1.not_mem_erase
  · rw [hmark]
    simp
  · rw [hreg, hcons.1.erase_eq_filter]
    congr 1
    funext j
    by_cases h : j = i <;> simp [h]
  · intro j hj
    rw [hinsts, closeDropdown_isOpen, if_neg hj]
  · intro hq
    refine ⟨initAll_completes _, ?_⟩
    have hfree : marker (destroy w i).world (w.insts i).element = none := by
      rw [hmark]; simp
    obtain ⟨j, hj1, hj2, hj3, hj4, _⟩ :=
      forEach_initElement_binds (destroy w i).world.dropdownElements (destroy w i).world
        (w.insts i).element (by rw [hdrop]; exact hq) hfree
    rw [hnext] at hj1
    refine ⟨j, ?_, ?_, hj2, hj3, hj4⟩
    · intro hji
      rw [hji] at hj1
      exact Nat.lt_irrefl _ (Nat.lt_of_lt_of_le (hcons.2 i hi) hj1)
    · intro hjm
      exact Nat.lt_irrefl _ (Nat.lt_of_lt_of_le (hcons.2 j hjm) hj1)

/-- Witness for C8: instance `0` of the bound page, torn down while open. -/
theorem teardown_witness :
    (consistent (openDropdown bound 0).world ∧ 0 ∈ (openDropdown bound 0).world.instances ∧
      wellFormed (openDropdown bound 0).world 0 = true ∧
      ((openDropdown bound 0).world.insts 0).isOpen = true) ∧
    ((destroy (openDropdown bound 0).world 0).completed = true ∧
    ((destroy (openDropdown bound 0).world 0).world.insts 0).isOpen = false ∧
    0 ∉ (destroy (openDropdown bound 0).world 0).world.instances ∧
    marker (destroy (openDropdown bound 0).world 0).world
      ((openDropdown bound 0).world.insts 0).element = none ∧
    (destroy (openDropdown bound 0).world 0).world.instances =
      (openDropdown bound 0).world.instances.filter (fun j => j ≠ 0) ∧
    (∀ j, j ≠ 0 → ((destroy (openDropdown bound 0).world 0).world.insts j).isOpen =
      ((openDropdown bound 0).world.insts j).isOpen) ∧
    (((openDropdown bound 0).world.insts 0).element ∈
        (openDropdown bound 0).world.dropdownElements →
      (initAll (destroy (openDropdown bound 0).world 0).world).completed = true ∧
      ∃ j, j ≠ 0 ∧ j ∉ (openDropdown bound 0).world.instances ∧
        marker (initAll (destroy (openDropdown bound 0).world 0).world).world
          ((openDropdown bound 0).world.insts 0).element = some j ∧
        j ∈ (initAll (destroy (openDropdown bound 0).world 0).world).world.instances ∧
        ((initAll (destroy (openDropdown bound 0).world 0).world).world.insts j).element =
          ((openDropdown bound 0).world.insts 0).element)) :=
  ⟨⟨by unfold consistent; decide, by decide, by decide, by decide⟩,
    teardown (openDropdown bound 0).world 0 (by unfold consistent; decide) (by decide)
      (by decide)⟩

/-! ## Trigger-mode resolution (C5) -/

/-- Claim C5 (code defect): the spread `...options` comes after the `trigger`
entry of the literal, so a `trigger` option always replaces the value computed
from `data-trigger`; only without options does the marker, or `'click'`,
decide.  Constructing on the container marked `data-trigger="hover"` with
`{ trigger: 'click' }` resolves to `'click'` and attaches the click listener
instead of the hover listeners. -/
theorem resolveOptions_trigger_option_wins :
    (∀ (e : Element) (options : Obj) (v : JSVal),
        (resolveOptions e (options.set "trigger" v)).get "trigger" = v) ∧
    (∀ e : Element,
        (resolveOptions e Obj.empty).get "trigger" = e.datasetTrigger.or (.str "click")) ∧
    (page.elems 5).datasetTrigger = .str "hover" ∧
    clickOptions.get "trigger" = .str "click" ∧
    (construct page 5 clickOptions).completed = true ∧
    ((construct page 5 clickOptions).world.insts 0).options.get "trigger" = .str "click" ∧
    (construct page 5 clickOptions).world.listeners.map (fun l => (l.type, l.handler)) =
      [("click", .toggleClick), ("click", .documentClick), ("keydown", .documentKeydown),
       ("click", .menuClick), ("keydown", .toggleKeydown), ("keydown", .menuKeydown)] := by
  refine ⟨?_, ?_, by decide, by decide, by decide, by decide, by decide⟩
  · intro e options v
    simp [resolveOptions, Obj.spread, Obj.set, Obj.get]
  · intro e
    simp only [resolveOptions, Obj.spread, Obj.set, Obj.get, Obj.empty, JSVal.or]
    have hu : JSVal.undefined.truthy = false := rfl
    cases h : e.datasetTrigger.truthy <;> simp [h, hu]

/-! ## Menu keys on an empty item list (C10) -/

/-- Claim C10 (code defect): instance `1` of the bound page is well formed and
its menu holds no item.  `ArrowDown` computes `0 % 0 = NaN` and `ArrowUp`
computes `-1`; `menuItems[...]` is `undefined` in both cases and the call of
`focus` on it raises a `TypeError`, whereas `focusFirstMenuItem` guards the
same situation. -/
theorem menuKeydown_empty_menu_throws :
    (bound.insts 1).toggle = some 6 ∧ (bound.insts 1).menu = some 7 ∧
    (bound.elems 7).anchors = [] ∧
    nextIndex (indexOf [] bound.activeElement) 0 = .nan ∧
    prevIndex (indexOf [] bound.activeElement) 0 = .int (-1) ∧
    (menuKeydown bound 1 "ArrowDown").completed = false ∧
    (menuKeydown bound 1 "ArrowUp").completed = false ∧
    (focusFirstMenuItem bound 1).completed = true := by
  decide

/-! ## Operations on a malformed widget (C4) -/

/-- Claim C4 (code defect): construction on a container without a menu
completes, warns once and attaches nothing, and `closeDropdown` and `destroy`
complete on the fresh instance; but `openDropdown` and `toggleDropdown` set
`isOpen` and then raise a `TypeError` on `this.menu.classList`, and from then on
`closeDropdown` and `destroy` raise one too.  When the malformed instance was
bound by `initAll`, the next `openDropdown` on a well-formed registered
instance raises as well, inside `closeAllDropdowns`, and does not open it. -/
theorem malformed_open_throws :
    (construct page 8 Obj.empty).completed = true ∧
    (inert.insts 0).menu = none ∧ (inert.insts 0).isOpen = false ∧
    inert.warnings = [initWarning] ∧ inert.listeners = [] ∧
    (closeDropdown inert 0).completed = true ∧
    (destroy inert 0).completed = true ∧
    (openDropdown inert 0).completed = false ∧
    ((openDropdown inert 0).world.insts 0).isOpen = true ∧
    (toggleDropdown inert 0).completed = false ∧
    ((toggleDropdown inert 0).world.insts 0).isOpen = true ∧
    (closeDropdown (openDropdown inert 0).world 0).completed = false ∧
    (destroy (openDropdown inert 0).world 0).completed = false ∧
    (initAll brokenPage).completed = true ∧
    broken.instances = [0, 1, 2] ∧ wellFormed broken 0 = true ∧
    (broken.insts 2).element = 8 ∧ (broken.insts 2).menu = none ∧
    (openDropdown broken 2).completed = false ∧
    ((openDropdown broken 2).world.insts 2).isOpen = true ∧
    (openDropdown (openDropdown broken 2).world 0).completed = false ∧
    ((openDropdown (openDropdown broken 2).world 0).world.insts 0).isOpen = false := by
  decide

/-! ## Explicit construction and the registry (C9) -/

/-- Claim C9 (code defect): the constructor never touches
`VanillaDropdown.instances`; only `initAll` pushes.  The instance built by
`new VanillaDropdown(el10, {})` is therefore unregistered, and opening the
registered instance `0` leaves it open: two instances are open at once. -/
theorem construct_does_not_register :
    (∀ (w : World) (element : Ref) (options : Obj),
        (construct w element options).world.instances = w.instances) ∧
    bound.instances = [0, 1] ∧ bound.nextInst = 2 ∧
    (construct bound 10 Obj.empty).completed = true ∧
    (manual.insts 2).element = 10 ∧
    (manual.insts 2).toggle = some 11 ∧ (manual.insts 2).menu = some 12 ∧
    manual.instances = [0, 1] ∧
    ((openDropdown manual 2).world.insts 2).isOpen = true ∧
    (openDropdown (openDropdown manual 2).world 0).completed = true ∧
    ((openDropdown (openDropdown manual 2).world 0).world.insts 0).isOpen = true ∧
    ((openDropdown (openDropdown manual 2).world 0).world.insts 2).isOpen = true := by
  refine ⟨?_, by decide, by decide, by decide, by decide, by decide, by decide, by decide,
    by decide, by decide, by decide, by decide⟩
  exact construct_instances

end VanillaDropdown
